import Mathlib

/-!
Verification of the 3-tier intent engine of the Voice-AI-agent repository
(`agent/intent_engine.py`).  The Python source is shallowly embedded:
strings are processed over `List Char` with explicit ASCII semantics
mirroring the Python string methods and the concrete regular expressions
used by the source; floating point scores are modelled by rationals, and
the transcendental helpers `math.log` / `math.sqrt` are abstract function
parameters (the verified properties do not depend on their values);
`dict` parameters coming from parsed LLM JSON are association lists of
`PyVal` values; Python exceptions are modelled by `Except`.
-/

deriving instance DecidableEq for Except

namespace VoiceAgent

/-! ### Python string primitives (ASCII semantics) -/

/-- `str.lower` on an ASCII character. -/
def lowChar (c : Char) : Char :=
  if 'A' ≤ c ∧ c ≤ 'Z' then Char.ofNat (c.toNat + 32) else c

/-- `str.lower`. -/
def lowerStr (s : String) : String := String.mk (s.data.map lowChar)

/-- Python whitespace (`\s` and `str.strip`): space, tab, newline, CR, VT, FF. -/
def isWsChar (c : Char) : Bool :=
  c = ' ' ∨ c = '\t' ∨ c = '\n' ∨ c = '\r' ∨ c = '\x0b' ∨ c = '\x0c'

def trimChars (cs : List Char) : List Char :=
  ((cs.dropWhile isWsChar).reverse.dropWhile isWsChar).reverse

/-- `str.strip()`. -/
def pyStrip (s : String) : String := String.mk (trimChars s.data)

/-- Match a literal at the head of the input, returning the rest. -/
def litP : List Char → List Char → Option (List Char)
  | [], rest => some rest
  | _ :: _, [] => none
  | p :: ps, c :: cs => if c = p then litP ps cs else none

/-- `needle in hay` (Python substring containment). -/
def hasSub (needle : List Char) : List Char → Bool
  | [] => (litP needle []).isSome
  | c :: cs => (litP needle (c :: cs)).isSome || hasSub needle cs

/-- `hay.index(needle)`: character index of the first occurrence. -/
def findSub (needle : List Char) : List Char → Option Nat
  | [] => if (litP needle []).isSome then some 0 else none
  | c :: cs =>
    if (litP needle (c :: cs)).isSome then some 0
    else (findSub needle cs).map (· + 1)

def strContains (hay needle : String) : Bool := hasSub needle.data hay.data

def wordsAux : List Char → List Char → List String
  | cur, [] => if cur.isEmpty then [] else [String.mk cur.reverse]
  | cur, c :: cs =>
    if isWsChar c then
      if cur.isEmpty then wordsAux [] cs
      else String.mk cur.reverse :: wordsAux [] cs
    else wordsAux (c :: cur) cs

/-- `str.split()` with no argument: split on whitespace runs. -/
def pyWords (s : String) : List String := wordsAux [] s.data

/-- First element of a list of options that is `some`. -/
def firstSome {α β : Type} (f : α → Option β) : List α → Option β
  | [] => none
  | a :: as =>
    match f a with
    | some b => some b
    | none => firstSome f as

def isDigitCh (c : Char) : Bool := '0' ≤ c ∧ c ≤ '9'

def natOfDigits (cs : List Char) : Nat :=
  cs.foldl (fun acc c => acc * 10 + (c.toNat - 48)) 0

/-- Python `int(str)`: optional surrounding whitespace, optional sign,
one or more digits; anything else raises (`none`). -/
def pyIntOfChars (cs : List Char) : Option Int :=
  let cs := trimChars cs
  match cs with
  | [] => none
  | '+' :: rest =>
    if rest ≠ [] ∧ rest.all isDigitCh then some (natOfDigits rest) else none
  | '-' :: rest =>
    if rest ≠ [] ∧ rest.all isDigitCh then some (-(natOfDigits rest : Int)) else none
  | rest =>
    if rest.all isDigitCh then some (natOfDigits rest) else none

/-! ### Loosely typed Python values (parsed LLM JSON / cache params) -/

inductive PyVal : Type
  | pstr : String → PyVal
  | pint : Int → PyVal
deriving DecidableEq, Repr

/-- Python truthiness of a `PyVal`. -/
def truthy : PyVal → Bool
  | .pstr s => s ≠ ""
  | .pint n => n ≠ 0

/-- Python `int(v)`: identity on ints, strict parsing on strings. -/
def pyToInt : PyVal → Option Int
  | .pint n => some n
  | .pstr s => pyIntOfChars s.data

/-- `d.get(k)` on a dict-shaped association list. -/
def dGet (d : List (String × PyVal)) (k : String) : Option PyVal :=
  (d.find? (fun kv => kv.1 = k)).map (·.2)

/-- `d.get(k, default)`. -/
def dGetD (d : List (String × PyVal)) (k : String) (v : PyVal) : PyVal :=
  (dGet d k).getD v

/-! ### `Command` (agent/schema.py), with loosely typed payload fields -/

structure Command where
  action : String
  query : Option PyVal := none
  package : Option PyVal := none
  direction : Option String := none
  amount : Int := 1
  text : Option PyVal := none
  x : Option Int := none
  y : Option Int := none
deriving DecidableEq, Repr

/-! ### Compound command splitter (`split_compound`) -/

def COMMAND_VERBS : List String :=
  ["open", "launch", "start", "go", "switch", "close", "kill", "exit",
   "type", "write", "enter", "input",
   "send", "message", "text", "tell", "chat",
   "search", "look", "find", "google", "youtube",
   "click", "tap", "press", "select", "hit",
   "scroll", "swipe",
   "play", "pause", "stop", "skip", "next", "previous", "resume",
   "back", "home",
   "mute", "unmute", "volume",
   "increase", "decrease", "raise", "lower", "reduce",
   "turn", "set", "max", "crank", "boost", "pump",
   "teach", "forget",
   "dim", "brighten",
   "screenshot", "capture"]

def COMPOUND_SEPS : List String := [" and then ", " then ", " and ", " after that "]

def MODIFIER_WORDS : List String := ["send", "enter", "submit", "search"]

def PRONOUN_WORDS : List String := ["it", "that", "this"]

def MANIP_VERBS : List String := ["tap", "click", "select", "press", "hit", "open"]

/-- One iteration of the separator loop of `split_compound`: try to split the
already stripped utterance `t` at the first occurrence of `sep`. -/
def trySep (t : String) (sep : String) : Option (List String) :=
  match findSub sep.data (lowerStr t).data with
  | none => none
  | some idx =>
    let left := pyStrip (String.mk (t.data.take idx))
    let right := pyStrip (String.mk (t.data.drop (idx + sep.data.length)))
    if left = "" ∨ right = "" then none
    else
      let rightWords := pyWords (lowerStr right)
      let firstWord := rightWords.headD ""
      if rightWords.length ≤ 1 ∧ firstWord ∈ MODIFIER_WORDS then none
      else if rightWords.length = 2 ∧ rightWords.getD 1 "" ∈ PRONOUN_WORDS ∧
              firstWord ∈ MANIP_VERBS then none
      else if firstWord ∈ COMMAND_VERBS then some [left, right]
      else none

/-- `split_compound(utterance)`. -/
def split_compound (utterance : String) : Option (List String) :=
  firstSome (trySep (pyStrip utterance)) COMPOUND_SEPS

/-! ### Tokenizer (`_tokenize`) -/

def STOPWORDS : List String :=
  ["the", "a", "an", "is", "it", "i", "my", "me",
   "please", "can", "you", "could", "would"]

def isTokChar (c : Char) : Bool := ('a' ≤ c ∧ c ≤ 'z') ∨ ('0' ≤ c ∧ c ≤ '9')

/-- `re.findall(r'[a-z0-9]+', ...)`: maximal runs of lowercase alphanumerics. -/
def tokenRuns : List Char → List Char → List String
  | cur, [] => if cur.isEmpty then [] else [String.mk cur.reverse]
  | cur, c :: cs =>
    if isTokChar c then tokenRuns (c :: cur) cs
    else if cur.isEmpty then tokenRuns [] cs
    else String.mk cur.reverse :: tokenRuns [] cs

/-- `_tokenize(text)`. -/
def tokenize (text : String) : List String :=
  (tokenRuns [] (lowerStr text).data).filter (fun t => t ∉ STOPWORDS)

/-! ### Regex building blocks

The handful of concrete patterns used by the source are compiled by hand
into scanners over `List Char`, with Python `re` semantics: leftmost
search position first, alternations tried in order, greedy/lazy
quantifiers with the backtracking the concrete patterns need.  `.` is
modelled as matching any character (utterances are single-line). -/

/-- `\s+` with maximal munch (the concrete patterns are insensitive to
whitespace backtracking: what follows is never a whitespace character). -/
def ws1 : List Char → Option (List Char)
  | [] => none
  | c :: cs => if isWsChar c then some (cs.dropWhile isWsChar) else none

def wordChar (c : Char) : Bool := c.isAlphanum || c = '_'

/-- `\b` at the border between a just-matched word and the rest. -/
def wordBoundary : List Char → Bool
  | [] => true
  | c :: _ => ¬ wordChar c

/-- Scan every start position (Python `re.search`), leftmost match wins. -/
def scanP {α : Type} (p : List Char → Option α) : List Char → Option α
  | [] => p []
  | c :: cs =>
    match p (c :: cs) with
    | some a => some a
    | none => scanP p cs

/-- Lazy `(.+?)` followed by a terminator check: grow the capture one
character at a time, trying the terminator after each step. -/
def lazyCapAux (term : List Char → Bool) : List Char → List Char → Option String
  | _, [] => none
  | acc, c :: cs =>
    if term cs then some (String.mk (c :: acc).reverse)
    else lazyCapAux term (c :: acc) cs

/-! ### Tier-0 regex fast paths (`IntentEngine._classify_single`) -/

/-- Terminator alternative `\s+on\s+(?:the\s+)?screen`. -/
def termOnScreen (cs : List Char) : Bool :=
  match ws1 cs with
  | none => false
  | some r1 =>
    match litP "on".data r1 with
    | none => false
    | some r2 =>
      match ws1 r2 with
      | none => false
      | some r3 =>
        (match (litP "the".data r3).bind ws1 with
         | some r4 => (litP "screen".data r4).isSome
         | none => false) || (litP "screen".data r3).isSome

/-- Terminator alternative `\s+and\s+(?:tap|click|press|select)\b`. -/
def termAndTap (cs : List Char) : Bool :=
  match ws1 cs with
  | none => false
  | some r1 =>
    match litP "and".data r1 with
    | none => false
    | some r2 =>
      match ws1 r2 with
      | none => false
      | some r3 =>
        (firstSome
          (fun v => (litP v.data r3).bind
            (fun rest => if wordBoundary rest then some rest else none))
          ["tap", "click", "press", "select"]).isSome

/-- Head alternation `(?:search\s+for|find|look\s+for)`. -/
def visHead (cs : List Char) : Option (List Char) :=
  match litP "search".data cs with
  | some r => (ws1 r).bind (litP "for".data)
  | none =>
    match litP "find".data cs with
    | some r => some r
    | none =>
      match litP "look".data cs with
      | some r => (ws1 r).bind (litP "for".data)
      | none => none

/-- `\s+(?:the\s+)?(.+?)` followed by a terminator, with backtracking on
the optional `the`. -/
def visAfterHead (term : List Char → Bool) (cs : List Char) : Option String :=
  match ws1 cs with
  | none => none
  | some r =>
    match (litP "the".data r).bind ws1 with
    | some r2 =>
      match lazyCapAux term [] r2 with
      | some cap => some cap
      | none => lazyCapAux term [] r
    | none => lazyCapAux term [] r

def visSearchTerm (cs : List Char) : Bool := termOnScreen cs || termAndTap cs

/-- Capture of `(?:search\s+for|find|look\s+for)\s+(?:the\s+)?(.+?)`
followed by the on-screen/and-tap terminator (`re.search`). -/
def visSearchCap (cs : List Char) : Option String :=
  scanP (fun l => (visHead l).bind (visAfterHead visSearchTerm)) cs

/-- Is `\s+{w}\s*$` matched exactly at this position? -/
def wsWordEndAt (w : String) (cs : List Char) : Bool :=
  match ws1 cs with
  | none => false
  | some r =>
    match litP w.data r with
    | none => false
    | some r2 => r2.dropWhile isWsChar = []

def rwweAux (w : String) : List Char → List Char → List Char
  | acc, [] => acc.reverse
  | acc, c :: cs =>
    if wsWordEndAt w (c :: cs) then acc.reverse else rwweAux w (c :: acc) cs

/-- `re.sub(r'\s+{w}\s*$', '', s)`. -/
def removeWsWordEnd (w : String) (s : String) : String :=
  String.mk (rwweAux w [] s.data)

def ORDINAL_WORDS : List String :=
  ["first", "second", "third", "fourth", "fifth", "last",
   "1st", "2nd", "3rd", "4th", "5th"]

/-- The ordinal alternation
`(?:first|second|third|fourth|fifth|last|1st|2nd|3rd|4th|5th|\d+(?:st|nd|rd|th))`,
returning the matched text and the rest. -/
def ordinalMunch (cs : List Char) : Option (List Char × List Char) :=
  match firstSome (fun w => (litP w.data cs).map (fun r => (w.data, r))) ORDINAL_WORDS with
  | some x => some x
  | none =>
    let digs := cs.takeWhile isDigitCh
    if digs = [] then none
    else
      let rest := cs.drop digs.length
      firstSome
        (fun sfx => (litP sfx.data rest).map (fun r => (digs ++ sfx.data, r)))
        ["st", "nd", "rd", "th"]

def TIER0_VERBS : List String :=
  ["tap", "click", "select", "open", "press", "hit", "choose"]

/-- Tail `ordinal\s+(.+)` of the ordinal-verb fast path. -/
def tier0OrdTail (cs : List Char) : Bool :=
  match ordinalMunch cs with
  | none => false
  | some (_, r) =>
    match ws1 r with
    | none => false
    | some r2 => r2 ≠ []

/-- `(?:the\s+)?` then the ordinal tail, with backtracking. -/
def tier0OrdCore (cs : List Char) : Bool :=
  (match (litP "the".data cs).bind ws1 with
   | some r => tier0OrdTail r
   | none => false) || tier0OrdTail cs

/-- `re.match` of the ordinal-verb fast path
`(?:tap|click|select|open|press|hit|choose)\s+(?:on\s+)?(?:the\s+)?ordinal\s+(.+)`. -/
def tier0OrdinalVerb (cs : List Char) : Bool :=
  match firstSome (fun v => litP v.data cs) TIER0_VERBS with
  | none => false
  | some r =>
    match ws1 r with
    | none => false
    | some r1 =>
      (match (litP "on".data r1).bind ws1 with
       | some r2 => tier0OrdCore r2
       | none => false) || tier0OrdCore r1

/-- `re.sub(r'^(?:tap|click|select|open|press|hit|choose)\s+(?:on\s+)?(?:the\s+)?', '', t)`. -/
def stripTier0Head (cs : List Char) : List Char :=
  match firstSome (fun v => litP v.data cs) TIER0_VERBS with
  | none => cs
  | some r =>
    match ws1 r with
    | none => cs
    | some r1 =>
      let r2 := match (litP "on".data r1).bind ws1 with | some x => x | none => r1
      match (litP "the".data r2).bind ws1 with | some x => x | none => r2

/-- `re.match` of the bare-ordinal fast path
`(?:the\s+)?(ordinal)\s+(\S+.*)`, returning both captures. -/
def tier0BareOrdinal (cs : List Char) : Option (String × String) :=
  let core := fun (cs2 : List Char) =>
    match ordinalMunch cs2 with
    | none => none
    | some (w, r) =>
      match ws1 r with
      | none => none
      | some r2 => if r2 = [] then none else some (String.mk w, String.mk r2)
  match (litP "the".data cs).bind ws1 with
  | some r =>
    match core r with
    | some x => some x
    | none => core cs
  | none => core cs

/-- The Tier-0 regex fast-path block of `_classify_single`, applied to the
lowercased stripped utterance `t`; `some` short-circuits the cascade. -/
def tier0 (t : String) : Option Command :=
  match visSearchCap t.data with
  | some cap =>
    let tg := pyStrip (removeWsWordEnd "icon"
      (pyStrip (removeWsWordEnd "button" (pyStrip cap))))
    some { action := "VISION_QUERY", query := some (.pstr tg) }
  | none =>
    if tier0OrdinalVerb t.data then
      some { action := "VISION_QUERY",
             query := some (.pstr (pyStrip (String.mk (stripTier0Head t.data)))) }
    else
      match tier0BareOrdinal t.data with
      | some (g1, g2) =>
        some { action := "VISION_QUERY", query := some (.pstr (g1 ++ " " ++ g2)) }
      | none => none

/-! ### More regex building blocks for the parameter extractor -/

def strStarts (s p : String) : Bool := (litP p.data s.data).isSome

/-- Generalised lazy `(.+?)` whose terminator produces inner captures. -/
def lazyCapA {α : Type} (term : List Char → Option α) :
    List Char → List Char → Option (String × α)
  | _, [] => none
  | acc, c :: cs =>
    match term cs with
    | some a => some (String.mk (c :: acc).reverse, a)
    | none => lazyCapA term (c :: acc) cs

/-- A word-alternation group `(w1|w2|...)`, alternatives tried in order
(literal spaces inside an alternative match a single space). -/
def grpP (alts : List String) (cs : List Char) : Option (List Char) :=
  firstSome (fun a => litP a.data cs) alts

/-- `\S+` with maximal munch: the run and the rest. -/
def nonWsRun (cs : List Char) : Option (List Char × List Char) :=
  let run := cs.takeWhile (fun c => ¬ isWsChar c)
  if run = [] then none else some (run, cs.drop run.length)

/-- The three tail shapes of the `re.sub(..., '')` patterns of the source:
`\s*$`, `.*$` and `\s+.*$`. -/
inductive TailK : Type
  | wsEnd : TailK
  | anyEnd : TailK
  | ws1AnyEnd : TailK

/-- Does `(\s+ group)+ tail` match exactly at this position? -/
def seqEndAtAux (tail : TailK) : List (List String) → List Char → Bool
  | [], cs =>
    match tail with
    | .wsEnd => cs.dropWhile isWsChar = []
    | .anyEnd => true
    | .ws1AnyEnd => (ws1 cs).isSome
  | g :: gs, cs =>
    match ws1 cs with
    | none => false
    | some r =>
      match grpP g r with
      | none => false
      | some r2 => seqEndAtAux tail gs r2

def removeSeqEndAux (groups : List (List String)) (tail : TailK) :
    List Char → List Char → List Char
  | acc, [] => acc.reverse
  | acc, c :: cs =>
    if seqEndAtAux tail groups (c :: cs) then acc.reverse
    else removeSeqEndAux groups tail (c :: acc) cs

/-- `re.sub` of an end-anchored `\s+word...` pattern: drop from the
leftmost match to the end of the string. -/
def removeSeqEnd (groups : List (List String)) (tail : TailK) (s : String) : String :=
  String.mk (removeSeqEndAux groups tail [] s.data)

/-! ### `ParamExtractor._after` -/

def insertLenDesc (s : String) : List String → List String
  | [] => [s]
  | t :: ts =>
    if s.data.length > t.data.length then s :: t :: ts else t :: insertLenDesc s ts

/-- `sorted(verbs, key=len, reverse=True)` (stable). -/
def sortLenDesc (l : List String) : List String :=
  l.foldl (fun acc s => insertLenDesc s acc) []

def boundaryOk : Option Char → Bool
  | none => true
  | some p => ¬ wordChar p

/-- Try `\b{verb}\s+(.+)` exactly at this position. -/
def afterVerbHere (v : List Char) (cs : List Char) : Option String :=
  match litP v cs with
  | some r =>
    match ws1 r with
    | some r2 => if r2 = [] then none else some (pyStrip (String.mk r2))
    | none => none
  | none => none

def afterVerbScan (v : List Char) : Option Char → List Char → Option String
  | prev, [] => if boundaryOk prev then afterVerbHere v [] else none
  | prev, c :: cs =>
    match (if boundaryOk prev then afterVerbHere v (c :: cs) else none) with
    | some s => some s
    | none => afterVerbScan v (some c) cs

/-- `ParamExtractor._after(text, verbs)`: first verb (longest first) whose
`\b{verb}\s+(.+)` pattern succeeds, returning the stripped capture. -/
def pyAfter (text : String) (verbs : List String) : Option String :=
  firstSome (fun v => afterVerbScan v.data none text.data) (sortLenDesc verbs)

/-! ### OPEN_APP filler-word removal
`re.sub(r'\b(the|app|application|up|my)\b', '', app)` -/

def OPEN_FILLER_WORDS : List String := ["the", "app", "application", "up", "my"]

def fillerHere (cs : List Char) : Option (List Char × List Char) :=
  firstSome
    (fun w => (litP w.data cs).bind
      (fun r => if wordBoundary r then some (w.data, r) else none))
    OPEN_FILLER_WORDS

def removeFillerGo : Nat → Option Char → List Char → List Char
  | 0, _, cs => cs
  | _ + 1, _, [] => []
  | n + 1, prev, c :: cs =>
    if boundaryOk prev then
      match fillerHere (c :: cs) with
      | some (w, r) => removeFillerGo n (some (w.getLastD 'x')) r
      | none => c :: removeFillerGo n (some c) cs
    else c :: removeFillerGo n (some c) cs

def removeFiller (s : String) : String :=
  String.mk (removeFillerGo (s.data.length + 1) none s.data)

/-! ### Messaging extraction (`ParamExtractor._extract_send`) -/

/-- `\s+(?:on|in)\s+(.+)$`. -/
def appTailDotEnd (cs : List Char) : Option String :=
  match ws1 cs with
  | none => none
  | some r =>
    match grpP ["on", "in"] r with
    | none => none
    | some r2 =>
      match ws1 r2 with
      | none => none
      | some r3 => if r3 = [] then none else some (String.mk r3)

/-- `(?:\s+(?:on|in)\s+(.+))?$` after the lazy contact capture. -/
def sendToG2Term (cs : List Char) : Option (Option String) :=
  match appTailDotEnd cs with
  | some app => some (some app)
  | none => if cs = [] then some none else none

/-- `\s+to\s+(.+?)(?:\s+(?:on|in)\s+(.+))?$`. -/
def sendToTerm (cs : List Char) : Option (String × Option String) :=
  match ws1 cs with
  | none => none
  | some r =>
    match litP "to".data r with
    | none => none
    | some r2 =>
      match ws1 r2 with
      | none => none
      | some r3 => lazyCapA sendToG2Term [] r3

/-- `(?:send|tell)\s+(.+?)\s+to\s+(.+?)(?:\s+(?:on|in)\s+(.+))?$` at one
position: (message, contact, app). -/
def sendToAt (cs : List Char) : Option (String × String × Option String) :=
  match grpP ["send", "tell"] cs with
  | none => none
  | some r =>
    match ws1 r with
    | none => none
    | some r2 =>
      (lazyCapA sendToTerm [] r2).map (fun p => (p.1, p.2.1, p.2.2))

/-- `\s+(?:on|in)\s+(\S+)\s*$`. -/
def appTailNonWsWsEnd (cs : List Char) : Option String :=
  match ws1 cs with
  | none => none
  | some r =>
    match grpP ["on", "in"] r with
    | none => none
    | some r2 =>
      match ws1 r2 with
      | none => none
      | some r3 =>
        match nonWsRun r3 with
        | none => none
        | some (g, rest) =>
          if rest.dropWhile isWsChar = [] then some (String.mk g) else none

/-- `(?:\s+(?:on|in)\s+(\S+))?\s*$` after a lazy capture. -/
def msgTerm (cs : List Char) : Option (Option String) :=
  match appTailNonWsWsEnd cs with
  | some app => some (some app)
  | none => if cs.dropWhile isWsChar = [] then some none else none

/-- `(?:text|message)\s+(\S+)\s+(.+?)(?:\s+(?:on|in)\s+(\S+))?\s*$`:
(contact, message, app). -/
def textMsgAt (cs : List Char) : Option (String × String × Option String) :=
  match grpP ["text", "message"] cs with
  | none => none
  | some r =>
    match ws1 r with
    | none => none
    | some r2 =>
      match nonWsRun r2 with
      | none => none
      | some (contact, r3) =>
        match ws1 r3 with
        | none => none
        | some r4 =>
          (lazyCapA msgTerm [] r4).map
            (fun p => (String.mk contact, p.1, p.2))

/-- `(?:message|text|dm)\s+(\S+)\s+(?:saying|that)\s+(.+)$`: (contact, message). -/
def sayingAt (cs : List Char) : Option (String × String) :=
  match grpP ["message", "text", "dm"] cs with
  | none => none
  | some r =>
    match ws1 r with
    | none => none
    | some r2 =>
      match nonWsRun r2 with
      | none => none
      | some (contact, r3) =>
        match ws1 r3 with
        | none => none
        | some r4 =>
          match grpP ["saying", "that"] r4 with
          | none => none
          | some r5 =>
            match ws1 r5 with
            | none => none
            | some r6 =>
              if r6 = [] then none else some (String.mk contact, String.mk r6)

/-- `(?:chat\s+with|chat|message|text|dm)\s+(.+?)(?:\s+(?:on|in)\s+(\S+))?\s*$`
at one position, with continuation backtracking across the head
alternation: (contact, app). -/
def chatAt (cs : List Char) : Option (String × Option String) :=
  let heads : List (List Char) :=
    (match (do
        let r ← litP "chat".data cs
        let r ← ws1 r
        litP "with".data r) with
     | some r => [r]
     | none => []) ++
    (match litP "chat".data cs with | some r => [r] | none => []) ++
    (match litP "message".data cs with | some r => [r] | none => []) ++
    (match litP "text".data cs with | some r => [r] | none => []) ++
    (match litP "dm".data cs with | some r => [r] | none => [])
  firstSome
    (fun r =>
      match ws1 r with
      | none => none
      | some r2 => lazyCapA msgTerm [] r2)
    heads

/-- `(?:whatsapp|wa)\s+(\S+)\s*(.*)` at one position, with continuation
backtracking: (contact, message). -/
def waAt (cs : List Char) : Option (String × String) :=
  let heads : List (List Char) :=
    (match litP "whatsapp".data cs with | some r => [r] | none => []) ++
    (match litP "wa".data cs with | some r => [r] | none => [])
  firstSome
    (fun r =>
      match ws1 r with
      | none => none
      | some r2 =>
        match nonWsRun r2 with
        | none => none
        | some (g1, rest) =>
          some (String.mk g1, String.mk (rest.dropWhile isWsChar)))
    heads

/-- `ParamExtractor._extract_send(raw)`. -/
def extract_send (raw : String) : Command :=
  let t := pyStrip (lowerStr raw)
  match scanP sendToAt t.data with
  | some (msg, contact, app) =>
    { action := "SEND_MESSAGE", query := some (.pstr (pyStrip contact)),
      text := some (.pstr (pyStrip msg)),
      package := some (.pstr (pyStrip (app.getD "whatsapp"))) }
  | none =>
  match scanP textMsgAt t.data with
  | some (contact, msg, app) =>
    { action := "SEND_MESSAGE", query := some (.pstr (pyStrip contact)),
      text := some (.pstr (pyStrip msg)),
      package := some (.pstr (pyStrip (app.getD "whatsapp"))) }
  | none =>
  match scanP sayingAt t.data with
  | some (contact, msg) =>
    { action := "SEND_MESSAGE", query := some (.pstr (pyStrip contact)),
      text := some (.pstr (pyStrip msg)), package := some (.pstr "whatsapp") }
  | none =>
  match scanP chatAt t.data with
  | some (contact, app) =>
    { action := "SEND_MESSAGE", query := some (.pstr (pyStrip contact)),
      text := some (.pstr ""), package := some (.pstr (pyStrip (app.getD "whatsapp"))) }
  | none =>
  match scanP waAt t.data with
  | some (contact, msg) =>
    { action := "SEND_MESSAGE", query := some (.pstr (pyStrip contact)),
      text := some (.pstr (pyStrip msg)), package := some (.pstr "whatsapp") }
  | none =>
    { action := "SEND_MESSAGE", query := some (.pstr raw),
      text := some (.pstr ""), package := some (.pstr "whatsapp") }

/-! ### Search / content extraction -/

/-- `\s+(?:on|in)\s+(.+)$` terminator used by the search/content templates. -/
def onInTerm (cs : List Char) : Option String := appTailDotEnd cs

/-- `(?:search|look up|find)\s+(.+?)\s+(?:on|in)\s+(.+)$`: (query, app). -/
def searchOnAt (cs : List Char) : Option (String × String) :=
  match grpP ["search", "look up", "find"] cs with
  | none => none
  | some r =>
    match ws1 r with
    | none => none
    | some r2 => lazyCapA onInTerm [] r2

/-- `(youtube|google)\s+(?:search\s+)?(.+)$`: (app, query). -/
def ytGoogleAt (cs : List Char) : Option (String × String) :=
  match firstSome (fun a => (litP a.data cs).map (fun r => (a, r))) ["youtube", "google"] with
  | none => none
  | some (g1, r) =>
    match ws1 r with
    | none => none
    | some r2 =>
      match (do
        let r3 ← litP "search".data r2
        let r4 ← ws1 r3
        if r4 = [] then none else some (g1, String.mk r4)) with
      | some x => some x
      | none => if r2 = [] then none else some (g1, String.mk r2)

/-- `(?:search|look up)\s+(?:for\s+)?(.+)$`: the query. -/
def searchForAt (cs : List Char) : Option String :=
  match grpP ["search", "look up"] cs with
  | none => none
  | some r =>
    match ws1 r with
    | none => none
    | some r2 =>
      match (do
        let r3 ← litP "for".data r2
        let r4 ← ws1 r3
        if r4 = [] then none else some (String.mk r4)) with
      | some x => some x
      | none => if r2 = [] then none else some (String.mk r2)

/-- `ParamExtractor._extract_search(raw)`. -/
def extract_search (raw : String) : Command :=
  let t := pyStrip (lowerStr raw)
  match scanP searchOnAt t.data with
  | some (q, app) =>
    { action := "SEARCH_IN_APP", query := some (.pstr (pyStrip q)),
      text := some (.pstr (pyStrip app)) }
  | none =>
  match scanP ytGoogleAt t.data with
  | some (app, q) =>
    { action := "SEARCH_IN_APP", query := some (.pstr (pyStrip q)),
      text := some (.pstr app) }
  | none =>
  match scanP searchForAt t.data with
  | some q => { action := "SEARCH_IN_APP", query := some (.pstr (pyStrip q)) }
  | none => { action := "SEARCH_IN_APP", query := some (.pstr raw) }

/-- `(?:play|open|watch)\s+(.+?)\s+(?:on|in)\s+(.+)$`: (content, app). -/
def contentAt (cs : List Char) : Option (String × String) :=
  match grpP ["play", "open", "watch"] cs with
  | none => none
  | some r =>
    match ws1 r with
    | none => none
    | some r2 => lazyCapA onInTerm [] r2

def ORDINAL_POS : List (String × Int) :=
  [("first", 1), ("second", 2), ("third", 3), ("fourth", 4), ("fifth", 5)]

/-- `ParamExtractor._extract_content(raw)`. -/
def extract_content (raw : String) : Command :=
  let t := pyStrip (lowerStr raw)
  let pos : Int :=
    (firstSome
      (fun p => if hasSub p.1.data t.data then some p.2 else none)
      ORDINAL_POS).getD 1
  match scanP contentAt t.data with
  | some (q, app) =>
    { action := "OPEN_CONTENT_IN_APP", query := some (.pstr (pyStrip q)),
      text := some (.pstr (pyStrip app)), amount := pos }
  | none =>
    { action := "OPEN_CONTENT_IN_APP", query := some (.pstr raw), amount := pos }

/-! ### TAP / vision-target extraction -/

/-- `(\d{2,4})\s+(\d{2,4})` at one position. -/
def tapAt (cs : List Char) : Option (Nat × Nat) :=
  let run := cs.takeWhile isDigitCh
  if run.length < 2 ∨ 4 < run.length then none
  else
    match ws1 (cs.drop run.length) with
    | none => none
    | some r =>
      let run2 := r.takeWhile isDigitCh
      if run2.length < 2 then none
      else some (natOfDigits run, natOfDigits (run2.take 4))

/-- First digit run (`re.search(r'(\d+)')`, as a number). -/
def firstDigitRun : List Char → Option Nat
  | [] => none
  | c :: cs =>
    if isDigitCh c then some (natOfDigits (c :: cs.takeWhile isDigitCh))
    else firstDigitRun cs

/-- Terminator of the extractor's vision pattern, with the extra `\s*$`
alternative. -/
def visTermExt (cs : List Char) : Bool :=
  termOnScreen cs || termAndTap cs || cs.dropWhile isWsChar = []

def visSearchCapExt (cs : List Char) : Option String :=
  scanP (fun l => (visHead l).bind (visAfterHead visTermExt)) cs

/-- `re.sub(r'^(on\s+)?(the\s+)?', '', target)`. -/
def stripOnThe (cs : List Char) : List Char :=
  let r1 := match (litP "on".data cs).bind ws1 with | some x => x | none => cs
  match (litP "the".data r1).bind ws1 with | some x => x | none => r1

def UI_PRE_VERBS : List String :=
  ["click", "tap", "press", "select", "choose", "hit", "open"]

/-- `re.sub(r'^(click|tap|press|select|choose|hit|open)\s+(on\s+)?(the\s+)?', '', t)`. -/
def stripUiHead (cs : List Char) : List Char :=
  match firstSome (fun v => litP v.data cs) UI_PRE_VERBS with
  | none => cs
  | some r =>
    match ws1 r with
    | none => cs
    | some r1 => stripOnThe r1

/-- The ordered filler-removal patterns of `_extract_ui_target`. -/
def UI_FILLER_PATS : List (List (List String) × TailK) :=
  [([["the"], ["youtube"], ["channel"]], .anyEnd),
   ([["the"], ["channel"]], .anyEnd),
   ([["this"], ["youtube"], ["channel"]], .anyEnd),
   ([["this"], ["channel"]], .anyEnd),
   ([["to"], ["this", "the"], ["channel", "video", "page", "post", "account"]], .anyEnd),
   ([["to"], ["this"]], .wsEnd),
   ([["to"], ["the"]], .wsEnd),
   ([["to"], ["it"]], .wsEnd),
   ([["this", "the"],
     ["video", "post", "page", "image", "photo", "story", "reel", "comment", "account"]],
    .anyEnd),
   ([["this"]], .wsEnd),
   ([["it"]], .wsEnd),
   ([["them"]], .wsEnd),
   ([["button"]], .wsEnd),
   ([["icon"]], .wsEnd),
   ([["on"], ["this", "the"]], .ws1AnyEnd)]

/-- `ParamExtractor._extract_ui_target(text)`. -/
def extract_ui_target (text : String) : String :=
  let t := pyStrip (lowerStr text)
  let t := pyStrip (String.mk (stripUiHead t.data))
  let t := UI_FILLER_PATS.foldl
    (fun acc p => pyStrip (removeSeqEnd p.1 p.2 acc)) t
  let t := pyStrip (removeSeqEnd [["to"]] .wsEnd t)
  let t := pyStrip (removeSeqEnd [["on"]] .wsEnd t)
  let t := pyStrip (removeSeqEnd [["in"]] .wsEnd t)
  let ws := pyWords t
  let t := if 2 < ws.length then String.intercalate " " (ws.take 2) else t
  if t = "" then text else t

/-! ### `ParamExtractor.extract` -/

def NO_PARAM_ACTIONS : List String :=
  ["EXIT", "WAKE", "BACK", "HOME", "CLOSE_ALL", "CLOSE_APP",
   "REINDEX_APPS", "TEACH_LAST", "LIST_MAPPINGS",
   "MEDIA_PLAY", "MEDIA_PAUSE", "MEDIA_PLAY_PAUSE",
   "MEDIA_NEXT", "MEDIA_PREVIOUS", "TAP_SEND",
   "VOLUME_MUTE", "VOLUME_UNMUTE", "SCREENSHOT", "VOLUME_MIN"]

/-- `llm_params and llm_params.get(k)` as an option on the truthy value. -/
def lpGetTruthy (lp : Option (List (String × PyVal))) (k : String) : Option PyVal :=
  match lp with
  | none => none
  | some d =>
    if d = [] then none
    else
      match dGet d k with
      | some v => if truthy v then some v else none
      | none => none

def VOLUME_KEYWORDS : List String := ["more", "lot", "much"]

/-- The VOLUME_UP / VOLUME_DOWN branch; `int()` of a non-numeric LLM
amount raises. -/
def extractVolume (action : String) (t : List Char)
    (lp : Option (List (String × PyVal))) : Except Unit Command :=
  match lpGetTruthy lp "amount" with
  | some v =>
    match pyToInt v with
    | some n => .ok { action := action, amount := n }
    | none => .error ()
  | none =>
    match firstDigitRun t with
    | some n => .ok { action := action, amount := (n : Int) }
    | none =>
      if VOLUME_KEYWORDS.any (fun w => hasSub w.data t) then
        .ok { action := action, amount := 5 }
      else .ok { action := action, amount := 2 }

/-- `action.split("_")[1]`. -/
def afterUnderscore (action : String) : String :=
  String.mk (((action.data.dropWhile (· ≠ '_')).drop 1).takeWhile (· ≠ '_'))

def extractScroll (action : String) (t : List Char) : Command :=
  let dir := afterUnderscore action
  let amt : Int :=
    if hasSub "twice".data t ∨ hasSub "two".data t then 2
    else if hasSub "more".data t ∨ hasSub "lot".data t then 3
    else 1
  let amt : Int :=
    match firstDigitRun t with
    | some n => (n : Int)
    | none => amt
  { action := "SCROLL", direction := some dir, amount := amt }

def OPEN_VERBS : List String :=
  ["open", "launch", "start", "go to", "switch to", "run", "take me to"]

def FINDAPP_VERBS : List String := ["find", "search for app", "look for", "where is"]

def TYPE_VERBS : List String := ["type", "write", "enter", "input", "put"]

def FINDVIS_VERBS : List String := ["find", "locate", "look for", "where is"]

def VIS_AFTER_VERBS : List String := ["click", "tap", "press", "select", "choose", "hit"]

def TEACH_VERBS : List String := ["teach", "remember", "when i say"]

def FORGET_VERBS : List String := ["forget", "unlearn", "remove mapping", "delete"]

def KEYEVENT_MAP : List (String × String) :=
  [("enter", "KEYCODE_ENTER"), ("tab", "KEYCODE_TAB"),
   ("escape", "KEYCODE_ESCAPE"), ("delete", "KEYCODE_DEL"),
   ("backspace", "KEYCODE_DEL"), ("space", "KEYCODE_SPACE")]

/-- `str.split(None, 1)`. -/
def splitOnce (cs : List Char) : List String :=
  let cs1 := cs.dropWhile isWsChar
  let w := cs1.takeWhile (fun c => ¬ isWsChar c)
  if w = [] then []
  else
    let rest := (cs1.drop w.length).dropWhile isWsChar
    if rest = [] then [String.mk w] else [String.mk w, String.mk rest]

/-- `ParamExtractor.extract(action, utterance, llm_params)`; the only
exception path is `int()` on a non-numeric truthy LLM amount. -/
def extract (action : String) (utterance : String)
    (lp : Option (List (String × PyVal))) : Except Unit Command :=
  let raw := pyStrip utterance
  let t := lowerStr raw
  if action ∈ NO_PARAM_ACTIONS then .ok { action := action }
  else if action = "VOLUME_MAX" then .ok { action := "VOLUME_UP", amount := 15 }
  else if action = "VOLUME_UP" ∨ action = "VOLUME_DOWN" then extractVolume action t.data lp
  else if action = "BRIGHTNESS_UP" ∨ action = "BRIGHTNESS_DOWN" then
    .ok { action := action, amount := 1 }
  else if strStarts action "SCROLL_" then .ok (extractScroll action t.data)
  else if strStarts action "SWIPE_" then
    .ok { action := "SWIPE", direction := some (afterUnderscore action), amount := 1 }
  else if action = "OPEN_APP" then
    .ok (match lpGetTruthy lp "app" with
      | some v => { action := "OPEN_APP", query := some v }
      | none =>
        match pyAfter t OPEN_VERBS with
        | some a =>
          let a := pyStrip (removeFiller a)
          { action := "OPEN_APP", query := some (if a = "" then .pstr raw else .pstr a) }
        | none => { action := "OPEN_APP", query := some (.pstr raw) })
  else if action = "FIND_APP" then
    .ok (match pyAfter t FINDAPP_VERBS with
      | some a =>
        { action := "FIND_APP", query := some (if a = "" then .pstr raw else .pstr a) }
      | none => { action := "FIND_APP", query := some (.pstr raw) })
  else if action = "TYPE_TEXT" then
    .ok (match pyAfter t TYPE_VERBS with
      | some a =>
        { action := "TYPE_TEXT", text := some (if a = "" then .pstr raw else .pstr a) }
      | none => { action := "TYPE_TEXT", text := some (.pstr raw) })
  else if action = "TYPE_AND_SEND" then
    .ok (match pyAfter t ["write", "type", "send"] with
      | some a =>
        let a := pyStrip (removeSeqEnd [["and"], ["send", "hit send"]] .wsEnd a)
        let a := pyStrip (removeSeqEnd [["then"], ["send"]] .wsEnd a)
        { action := "TYPE_AND_SEND", text := some (if a = "" then .pstr raw else .pstr a) }
      | none => { action := "TYPE_AND_SEND", text := some (.pstr raw) })
  else if action = "TYPE_AND_ENTER" then
    .ok (match pyAfter t ["type", "enter"] with
      | some a =>
        let a := pyStrip
          (removeSeqEnd [["and"], ["enter", "press enter", "search", "submit"]] .wsEnd a)
        { action := "TYPE_AND_ENTER", text := some (if a = "" then .pstr raw else .pstr a) }
      | none => { action := "TYPE_AND_ENTER", text := some (.pstr raw) })
  else if action = "SEND_MESSAGE" then
    .ok (match lp with
      | some d =>
        if d = [] then extract_send raw
        else
          let contact := dGetD d "contact" (.pstr "")
          let message := dGetD d "message" (.pstr "")
          let app := dGetD d "app" (.pstr "whatsapp")
          if truthy contact then
            { action := "SEND_MESSAGE", query := some contact, text := some message,
              package := some (if truthy app then app else .pstr "whatsapp") }
          else extract_send raw
      | none => extract_send raw)
  else if action = "SEARCH_IN_APP" then
    .ok (match lp with
      | some d =>
        if d = [] then extract_search raw
        else
          let q := dGetD d "query" (.pstr "")
          let app := dGetD d "app" (.pstr "")
          if truthy q then
            { action := "SEARCH_IN_APP", query := some q, text := some app }
          else extract_search raw
      | none => extract_search raw)
  else if action = "OPEN_CONTENT_IN_APP" then .ok (extract_content raw)
  else if action = "TAP" then
    .ok (match scanP tapAt t.data with
      | some (px, py) => { action := "TAP", x := some (px : Int), y := some (py : Int) }
      | none => { action := "TAP" })
  else if action = "VISION_QUERY" then
    .ok (let target :=
      match visSearchCapExt t.data with
      | some cap =>
        pyStrip (removeWsWordEnd "icon"
          (pyStrip (removeWsWordEnd "button" (pyStrip cap))))
      | none =>
        match pyAfter t VIS_AFTER_VERBS with
        | some a => pyStrip (String.mk (stripOnThe a.data))
        | none => extract_ui_target t
      { action := "VISION_QUERY",
        query := some (if target = "" then .pstr raw else .pstr target) })
  else if action = "SCREEN_INFO" then
    .ok { action := "SCREEN_INFO", query := some (.pstr raw) }
  else if action = "FIND_VISUAL" then
    .ok (match pyAfter t FINDVIS_VERBS with
      | some a =>
        { action := "FIND_VISUAL", query := some (if a = "" then .pstr raw else .pstr a) }
      | none => { action := "FIND_VISUAL", query := some (.pstr raw) })
  else if action = "TEACH_CUSTOM" then
    .ok (match pyAfter t TEACH_VERBS with
      | some rest =>
        if rest = "" then { action := "TEACH_LAST" }
        else
          match splitOnce rest.data with
          | [p1, p2] =>
            { action := "TEACH_CUSTOM", query := some (.pstr p1), text := some (.pstr p2) }
          | [p1] => { action := "TEACH_SHORTCUT", query := some (.pstr p1) }
          | _ => { action := "TEACH_LAST" }
      | none => { action := "TEACH_LAST" })
  else if action = "FORGET_MAPPING" then
    .ok (match pyAfter t FORGET_VERBS with
      | some a =>
        { action := "FORGET_MAPPING",
          query := some (if a = "" then .pstr raw else .pstr a) }
      | none => { action := "FORGET_MAPPING", query := some (.pstr raw) })
  else if action = "KEYEVENT" then
    .ok (match firstSome
        (fun p => if hasSub p.1.data t.data then some p.2 else none) KEYEVENT_MAP with
      | some code => { action := "KEYEVENT", query := some (.pstr code) }
      | none => { action := "KEYEVENT", query := some (.pstr "KEYCODE_ENTER") })
  else .ok { action := action, query := some (.pstr raw) }

/-- The action label of the command `extract` produces, as a function of
the action and the utterance alone (extraction templates can rewrite the
label, e.g. VOLUME_MAX to VOLUME_UP, SCROLL_* to SCROLL, TEACH_CUSTOM to
TEACH_SHORTCUT/TEACH_LAST, but never based on the LLM hint map). -/
def okAction (action utterance : String) : String :=
  let t := lowerStr (pyStrip utterance)
  if action ∈ NO_PARAM_ACTIONS then action
  else if action = "VOLUME_MAX" then "VOLUME_UP"
  else if action = "VOLUME_UP" ∨ action = "VOLUME_DOWN" then action
  else if action = "BRIGHTNESS_UP" ∨ action = "BRIGHTNESS_DOWN" then action
  else if strStarts action "SCROLL_" then "SCROLL"
  else if strStarts action "SWIPE_" then "SWIPE"
  else if action = "OPEN_APP" then "OPEN_APP"
  else if action = "FIND_APP" then "FIND_APP"
  else if action = "TYPE_TEXT" then "TYPE_TEXT"
  else if action = "TYPE_AND_SEND" then "TYPE_AND_SEND"
  else if action = "TYPE_AND_ENTER" then "TYPE_AND_ENTER"
  else if action = "SEND_MESSAGE" then "SEND_MESSAGE"
  else if action = "SEARCH_IN_APP" then "SEARCH_IN_APP"
  else if action = "OPEN_CONTENT_IN_APP" then "OPEN_CONTENT_IN_APP"
  else if action = "TAP" then "TAP"
  else if action = "VISION_QUERY" then "VISION_QUERY"
  else if action = "SCREEN_INFO" then "SCREEN_INFO"
  else if action = "FIND_VISUAL" then "FIND_VISUAL"
  else if action = "TEACH_CUSTOM" then
    match pyAfter t TEACH_VERBS with
    | some rest =>
      if rest = "" then "TEACH_LAST"
      else
        match splitOnce rest.data with
        | [_, _] => "TEACH_CUSTOM"
        | [_] => "TEACH_SHORTCUT"
        | _ => "TEACH_LAST"
    | none => "TEACH_LAST"
  else if action = "FORGET_MAPPING" then "FORGET_MAPPING"
  else if action = "KEYEVENT" then "KEYEVENT"
  else action

/-! ### Tier 3: learning cache (`LearningCache`) -/

structure CacheEntry where
  action : String
  params : List (String × PyVal)
  source : String
  examples : List String
deriving DecidableEq, Repr

/-- The in-memory phrase → entry dict (insertion order preserved). -/
abbrev Cache := List (String × CacheEntry)

/-- `phrase.strip().lower()`. -/
def cacheKey (phrase : String) : String := lowerStr (pyStrip phrase)

/-- `LearningCache.lookup(phrase)`: exact match on the normalised key. -/
def cacheLookup (c : Cache) (phrase : String) : Option CacheEntry :=
  (c.find? (fun kv => kv.1 = cacheKey phrase)).map (·.2)

def cacheStoreAux (key : String) (e : CacheEntry) : Cache → Cache
  | [] => [(key, e)]
  | kv :: rest => if kv.1 = key then (key, e) :: rest else kv :: cacheStoreAux key e rest

/-- `LearningCache.store(phrase, action, params, source, examples)`
(dict upsert; persistence is outside the model). -/
def cacheStore (c : Cache) (phrase action : String) (params : List (String × PyVal))
    (src : String) (examples : List String) : Cache :=
  cacheStoreAux (cacheKey phrase) ⟨action, params, src, examples⟩ c

/-- `LearningCache.get_tfidf_entries()`. -/
def getTfidfEntries (c : Cache) : List (String × String) :=
  c.flatMap (fun kv =>
    ("CACHED:" ++ kv.1, kv.1) :: kv.2.examples.map (fun ex => ("CACHED:" ++ kv.1, ex)))

/-! ### Tier 2: LLM classifier boundary (`LLMClassifier.classify`)

The network call, fence stripping, brace extraction and `json.loads` are
collaborator territory: an oracle maps the utterance to the decoded JSON
object, or `none` when no JSON object could be parsed from the reply.
`classify` then validates the `action` field against the closed
`ACTION_DESCRIPTIONS` key set; any failure yields `none`. -/

def ACTION_DESCRIPTION_KEYS : List String :=
  ["EXIT", "WAKE", "BACK", "HOME", "CLOSE_ALL", "CLOSE_APP",
   "VOLUME_UP", "VOLUME_DOWN", "VOLUME_MAX", "VOLUME_MIN",
   "VOLUME_MUTE", "VOLUME_UNMUTE", "MEDIA_PLAY", "MEDIA_PAUSE",
   "MEDIA_NEXT", "MEDIA_PREVIOUS", "SCROLL_DOWN", "SCROLL_UP",
   "OPEN_APP", "SEND_MESSAGE", "SEARCH_IN_APP", "TYPE_TEXT",
   "TYPE_AND_SEND", "VISION_QUERY", "SCREEN_INFO", "SCREENSHOT",
   "BRIGHTNESS_UP", "BRIGHTNESS_DOWN"]

abbrev LLMOracle := String → Option (List (String × PyVal))

/-- The validation step of `classify`: `"action" in data and data["action"]
in self.ACTION_DESCRIPTIONS`. -/
def validateLLM (data : List (String × PyVal)) : Option (List (String × PyVal)) :=
  match dGet data "action" with
  | some (.pstr a) => if a ∈ ACTION_DESCRIPTION_KEYS then some data else none
  | _ => none

/-- `LLMClassifier.classify(utterance)`. -/
def llmClassify (available : Bool) (lo : LLMOracle) (u : String) :
    Option (List (String × PyVal)) :=
  if available then (lo u).bind validateLLM else none

/-- `llm_data["action"]` under the validation guarantee. -/
def llmAction (data : List (String × PyVal)) : String :=
  match dGet data "action" with
  | some (.pstr a) => a
  | _ => ""

/-! ### Intent engine (`IntentEngine`)

The TF-IDF component is the engine's collaborator: a match oracle maps the
current cache contents and the query to `matcher.match(raw, top_k=3)`
(the index is rebuilt from `ACTION_EXAMPLES` plus the cache whenever the
cache changes, so the oracle is a function of the cache).  The state
additionally records how often the matcher and the LLM classifier were
invoked, which is what the bypass claims are about. -/

abbrev MatchOracle := Cache → String → List (ℚ × String × String)

structure Stats where
  tier1 : Nat := 0
  tier2 : Nat := 0
  cache_hit : Nat := 0
  miss : Nat := 0
deriving DecidableEq, Repr

structure EngineState where
  cache : Cache := []
  stats : Stats := {}
  llmCalls : Nat := 0
  matchCalls : Nat := 0
deriving DecidableEq, Repr

def TIER1_CONFIDENT : ℚ := mkRat 65 100

def TIER1_UNCERTAIN : ℚ := mkRat 35 100

def bumpTier1 (s : EngineState) : EngineState :=
  { s with stats := { s.stats with tier1 := s.stats.tier1 + 1 } }

def bumpTier2 (s : EngineState) : EngineState :=
  { s with stats := { s.stats with tier2 := s.stats.tier2 + 1 } }

def bumpCacheHit (s : EngineState) : EngineState :=
  { s with stats := { s.stats with cache_hit := s.stats.cache_hit + 1 } }

def bumpMiss (s : EngineState) : EngineState :=
  { s with stats := { s.stats with miss := s.stats.miss + 1 } }

/-- `IntentEngine._tier2_classify(utterance)`: classify, count the result,
write it back into the learning cache (the index rebuild is implicit in
the oracle being a function of the cache) and extract. -/
def tier2_classify (lo : LLMOracle) (available : Bool) (utterance : String)
    (s : EngineState) : Except Unit (Option Command × EngineState) :=
  let s := { s with llmCalls := s.llmCalls + 1 }
  match llmClassify available lo utterance with
  | none => .ok (none, s)
  | some data =>
    let action := llmAction data
    let s := bumpTier2 s
    let params := data.filter (fun kv => kv.1 ≠ "action" ∧ truthy kv.2)
    let s := { s with
      cache := cacheStore s.cache (lowerStr utterance) action params "llm" [] }
    (extract action utterance (some data)).map (fun c => (some c, s))

/-- The final fallback of `_classify_single`: trust the best TF-IDF guess
above the absolute floor, else a miss. -/
def classifyFloor (raw : String) (ms : List (ℚ × String × String))
    (s : EngineState) : Except Unit (Option Command × EngineState) :=
  match ms with
  | (sc, act, _) :: _ =>
    if mkRat 15 100 < sc then
      (extract act raw none).map (fun c => (some c, bumpTier1 s))
    else .ok (none, bumpMiss s)
  | [] => .ok (none, bumpMiss s)

/-- The Tier-2-then-floor tail of `_classify_single`. -/
def classifyBottom (lo : LLMOracle) (available : Bool) (raw : String)
    (ms : List (ℚ × String × String)) (s : EngineState) :
    Except Unit (Option Command × EngineState) :=
  if available then
    match tier2_classify lo available raw s with
    | .error e => .error e
    | .ok (some c, s') => .ok (some c, s')
    | .ok (none, s') => classifyFloor raw ms s'
  else classifyFloor raw ms s

/-- The Tier-1 confidence-band dispatch of `_classify_single`. -/
def classifyMatches (lo : LLMOracle) (available : Bool) (raw : String)
    (ms : List (ℚ × String × String)) (s : EngineState) :
    Except Unit (Option Command × EngineState) :=
  match ms with
  | [] => classifyBottom lo available raw ms s
  | (bestScore, bestAction, _) :: _ =>
    match (if strStarts bestAction "CACHED:" then
        cacheLookup s.cache (String.mk (bestAction.data.drop 7)) else none) with
    | some entry =>
      let s := bumpCacheHit s
      (extract entry.action raw (some entry.params)).map (fun c => (some c, s))
    | none =>
      if TIER1_CONFIDENT ≤ bestScore then
        (extract bestAction raw none).map (fun c => (some c, bumpTier1 s))
      else if TIER1_UNCERTAIN ≤ bestScore then
        if available then
          match tier2_classify lo available raw s with
          | .error e => .error e
          | .ok (some c, s') => .ok (some c, s')
          | .ok (none, s') =>
            (extract bestAction raw none).map (fun c => (some c, bumpTier1 s'))
        else
          (extract bestAction raw none).map (fun c => (some c, bumpTier1 s))
      else classifyBottom lo available raw ms s

/-- `IntentEngine._classify_single(utterance)`. -/
def classify_single (mo : MatchOracle) (lo : LLMOracle) (available : Bool)
    (utterance : String) (s : EngineState) :
    Except Unit (Option Command × EngineState) :=
  let raw := pyStrip utterance
  if raw = "" then .ok (none, s)
  else
    let t := lowerStr raw
    match cacheLookup s.cache t with
    | some entry =>
      let s := bumpCacheHit s
      (extract entry.action raw (some entry.params)).map (fun c => (some c, s))
    | none =>
      match tier0 t with
      | some c => .ok (some c, s)
      | none =>
        let ms := mo s.cache raw
        classifyMatches lo available raw ms
          { s with matchCalls := s.matchCalls + 1 }

/-- `"|".join(valid)`. -/
def joinPipe : List String → String
  | [] => ""
  | [x] => x
  | x :: xs => x ++ "|" ++ joinPipe xs

/-- The compound fan-out loop of `understand`: classify every part,
collecting the parts that resolved. -/
def collectValid (mo : MatchOracle) (lo : LLMOracle) (available : Bool) :
    List String → EngineState → Except Unit (List String × EngineState)
  | [], s => .ok ([], s)
  | p :: ps, s =>
    match classify_single mo lo available p s with
    | .error e => .error e
    | .ok (r, s') =>
      match collectValid mo lo available ps s' with
      | .error e => .error e
      | .ok (v, s'') => .ok ((if r.isSome then [p] else []) ++ v, s'')

/-- `IntentEngine.understand(utterance)` (the unused `current_app` hint is
omitted). -/
def understand (mo : MatchOracle) (lo : LLMOracle) (available : Bool)
    (utterance : String) (s : EngineState) :
    Except Unit (Option Command × EngineState) :=
  let raw := pyStrip utterance
  if raw = "" then .ok (none, s)
  else
    match split_compound raw with
    | some parts =>
      if 2 ≤ parts.length then
        match collectValid mo lo available parts s with
        | .error e => .error e
        | .ok (valid, s') =>
          if 2 ≤ valid.length then
            .ok (some { action := "MULTI_STEP",
                        query := some (.pstr (joinPipe valid)) }, s')
          else classify_single mo lo available raw s'
      else classify_single mo lo available raw s
    | none => classify_single mo lo available raw s

/-! ### Tier 1: TF-IDF matcher (`TFIDFMatcher`)

Scores are exact rationals; `math.log` and `math.sqrt` are abstract
parameters `log`/`sqrt` (the verified shape properties of `match` hold
for arbitrary values of both). -/

structure TFIDFMatcher where
  documents : List (String × String) := []
  doc_tokens : List (List String) := []
  idf : List (String × ℚ) := []
  doc_tfidf : List (List (String × ℚ)) := []
  built : Bool := false

def lbraceCh : Char := Char.ofNat 123

def rbraceCh : Char := Char.ofNat 125

def braceStripGo : Nat → List Char → List Char
  | 0, cs => cs
  | _ + 1, [] => []
  | n + 1, c :: cs =>
    if c = lbraceCh then
      let inner := cs.takeWhile (fun d => d ≠ rbraceCh)
      match cs.drop inner.length with
      | d :: rest =>
        if inner ≠ [] ∧ d = rbraceCh then braceStripGo n rest
        else c :: braceStripGo n cs
      | [] => c :: braceStripGo n cs
    else c :: braceStripGo n cs

/-- `re.sub(r'\x7b[^\x7d]+\x7d', '', text)` (brace-delimited template
slots are removed before tokenizing). -/
def braceStrip (s : String) : String :=
  String.mk (braceStripGo (s.data.length + 1) s.data)

/-- `TFIDFMatcher.add_document(action, text)`. -/
def add_document (m : TFIDFMatcher) (action text : String) : TFIDFMatcher :=
  { m with
    documents := m.documents ++ [(action, text)],
    doc_tokens := m.doc_tokens ++ [tokenize (pyStrip (braceStrip text))],
    built := false }

def bumpCount (k : String) : List (String × Nat) → List (String × Nat)
  | [] => [(k, 1)]
  | kv :: rest => if kv.1 = k then (k, kv.2 + 1) :: rest else kv :: bumpCount k rest

/-- Document frequencies: one count per document containing the term. -/
def dfOf (docTokens : List (List String)) : List (String × Nat) :=
  docTokens.foldl (fun df toks => toks.eraseDups.foldl (fun d t => bumpCount t d) df) []

/-- `Counter(tokens)` (insertion order). -/
def counterOf (toks : List String) : List (String × Nat) :=
  toks.foldl (fun acc t => bumpCount t acc) []

def idfGet (idf : List (String × ℚ)) (t : String) : ℚ :=
  ((idf.find? (fun kv => kv.1 = t)).map (·.2)).getD 1

/-- `idf = {term: log((n+1)/(df+1)) + 1}`. -/
def buildIdf (log : ℚ → ℚ) (n : Nat) (df : List (String × Nat)) : List (String × ℚ) :=
  df.map (fun kv => (kv.1, log (mkRat (n + 1) (kv.2 + 1)) + 1))

/-- `{term: (count/total) * idf.get(term, 1.0)}`. -/
def tfidfOf (idf : List (String × ℚ)) (toks : List String) : List (String × ℚ) :=
  let total : Nat := if toks = [] then 1 else toks.length
  (counterOf toks).map (fun kv => (kv.1, mkRat kv.2 total * idfGet idf kv.1))

/-- `TFIDFMatcher.build()`. -/
def build (log : ℚ → ℚ) (m : TFIDFMatcher) : TFIDFMatcher :=
  if m.documents.length = 0 then m
  else
    let idf := buildIdf log m.documents.length (dfOf m.doc_tokens)
    { m with idf := idf, doc_tfidf := m.doc_tokens.map (tfidfOf idf), built := true }

def vGet (v : List (String × ℚ)) (k : String) : ℚ :=
  ((v.find? (fun kv => kv.1 = k)).map (·.2)).getD 0

/-- `sum(a.get(k, 0) * b.get(k, 0) for k in set(a) | set(b))`. -/
def dotQ (a b : List (String × ℚ)) : ℚ :=
  ((a.map (·.1) ++ b.map (·.1)).eraseDups).foldl
    (fun acc k => acc + vGet a k * vGet b k) 0

def sumSq (v : List (String × ℚ)) : ℚ := v.foldl (fun acc kv => acc + kv.2 * kv.2) 0

/-- `math.sqrt(sum(v**2)) or 1e-10`: the epsilon guard of `_cosine`. -/
def magOf (sqrt : ℚ → ℚ) (v : List (String × ℚ)) : ℚ :=
  let m := sqrt (sumSq v)
  if m = 0 then mkRat 1 10000000000 else m

/-- `TFIDFMatcher._cosine(a, b)`. -/
def cosineQ (sqrt : ℚ → ℚ) (a b : List (String × ℚ)) : ℚ :=
  dotQ a b / (magOf sqrt a * magOf sqrt b)

/-- Stable descending insertion by score (`results.sort(key=..., reverse=True)`). -/
def insertScoreDesc (x : ℚ × String × String) :
    List (ℚ × String × String) → List (ℚ × String × String)
  | [] => [x]
  | y :: ys => if y.1 < x.1 then x :: y :: ys else y :: insertScoreDesc x ys

def sortScoreDesc (l : List (ℚ × String × String)) : List (ℚ × String × String) :=
  l.foldl (fun acc x => insertScoreDesc x acc) []

/-- The dedup-by-action loop of `match`, with the `break` once
`len(deduped) >= top_k` after an append. -/
def dedupTake (top_k : Nat) :
    List (ℚ × String × String) → List String → Nat → List (ℚ × String × String)
  | [], _, _ => []
  | e :: rest, seen, cnt =>
    if e.2.1 ∈ seen then dedupTake top_k rest seen cnt
    else if top_k ≤ cnt + 1 then [e]
    else e :: dedupTake top_k rest (e.2.1 :: seen) (cnt + 1)

/-- `TFIDFMatcher.match(query, top_k)`. -/
def tfidf_match (log sqrt : ℚ → ℚ) (m0 : TFIDFMatcher) (query : String)
    (top_k : Nat) : List (ℚ × String × String) :=
  let m := if m0.built then m0 else build log m0
  let qtoks := tokenize query
  if qtoks = [] then []
  else
    let qv := tfidfOf m.idf qtoks
    let results := (m.doc_tfidf.zip m.documents).filterMap
      (fun p =>
        let sc := cosineQ sqrt qv p.1
        if 0 < sc then some (sc, p.2.1, p.2.2) else none)
    dedupTake top_k (sortScoreDesc results) [] 0

/-! ### Auxiliary predicates and concrete stub collaborators

The stubs play the role of the seeded/stubbed collaborators of the spec's
test scenarios: a matcher oracle is an arbitrary function of the cache,
an LLM oracle an arbitrary decoded-reply function. -/

/-- Exactly one of the four stats counters was incremented exactly once. -/
def statsOneBump (a b : Stats) : Prop :=
  b.tier1 + b.tier2 + b.cache_hit + b.miss =
    a.tier1 + a.tier2 + a.cache_hit + a.miss + 1 ∧
  a.tier1 ≤ b.tier1 ∧ b.tier1 ≤ a.tier1 + 1 ∧
  a.tier2 ≤ b.tier2 ∧ b.tier2 ≤ a.tier2 + 1 ∧
  a.cache_hit ≤ b.cache_hit ∧ b.cache_hit ≤ a.cache_hit + 1 ∧
  a.miss ≤ b.miss ∧ b.miss ≤ a.miss + 1

/-- Any truthy LLM `amount` hint converts under `int()` — the utterances
on which extraction cannot raise. -/
def amountHintSafe (lp : Option (List (String × PyVal))) : Prop :=
  ∀ v, lpGetTruthy lp "amount" = some v → (pyToInt v).isSome

/-- The Tier-1 outcome neither resolves through a cached label nor clears
the confident threshold, so `_classify_single` goes on to consult Tier 2. -/
def tier2Reachable (c : Cache) (ms : List (ℚ × String × String)) : Prop :=
  match ms with
  | [] => True
  | (sc, lbl, _) :: _ =>
    (strStarts lbl "CACHED:" = true →
      cacheLookup c (String.mk (lbl.data.drop 7)) = none) ∧
    sc < TIER1_CONFIDENT

/-- A matcher oracle that never matches. -/
def stubEmptyMatch : MatchOracle := fun _ _ => []

/-- An LLM oracle whose model never yields a parseable JSON object. -/
def stubNoLLM : LLMOracle := fun _ => none

/-- A deterministic LLM stub: `{action: VOLUME_UP, amount: 5}` for the
phrase "blast it". -/
def stubBlastLLM : LLMOracle := fun u =>
  if u = "blast it" then some [("action", .pstr "VOLUME_UP"), ("amount", .pint 5)]
  else none

/-- A matcher stub resolving the two sub-utterances of the compound
example confidently. -/
def stubTwoPartMatch : MatchOracle := fun _ u =>
  if u = "open chrome" then [((1 : ℚ), "OPEN_APP", "open chrome")]
  else if u = "search cats" then [((1 : ℚ), "SEARCH_IN_APP", "search cats")]
  else []

/-- A learning cache already holding an LLM-learned phrase. -/
def demoCache : Cache :=
  [("blast it", ⟨"VOLUME_UP", [("amount", .pint 5)], "llm", []⟩)]

/-- A matcher stub whose top match is a namespaced cached label with a
very low score. -/
def stubCachedLabelMatch : MatchOracle := fun _ _ =>
  [((mkRat 1 100), "CACHED:blast it", "blast it")]

/-- A seeded matcher stub ranking a wrong action with a near-perfect
score for every query. -/
def stubWrongActionMatch : MatchOracle := fun _ _ =>
  [((mkRat 99 100), "OPEN_APP", "mail")]

/-- An LLM stub answering with an action outside the closed enumeration. -/
def stubInvalidActionLLM : LLMOracle := fun _ =>
  some [("action", .pstr "DELETE_EVERYTHING")]

/-- An LLM stub whose reply carries a falsy `app` slot next to a truthy
`query` slot. -/
def stubFalsySlotLLM : LLMOracle := fun u =>
  if u = "locate kittens" then
    some [("action", .pstr "SEARCH_IN_APP"), ("query", .pstr "cats"), ("app", .pint 0)]
  else none

/-- A confident Tier-1 stub for the volume phrases. -/
def stubVolumeMatch : MatchOracle := fun _ u =>
  [((mkRat 9 10), "VOLUME_UP", u)]

/-- A one-document index for the TF-IDF counterexample. -/
def demoMatcher : TFIDFMatcher := add_document {} "VOLUME_UP" "volume"

/-! ## Shared helper lemmas -/

theorem firstSome_eq_some {α β : Type} {f : α → Option β} {l : List α} {b : β}
    (h : firstSome f l = some b) : ∃ a ∈ l, f a = some b := by
  induction l with
  | nil => simp [firstSome] at h
  | cons a as ih =>
    rw [firstSome] at h
    cases hfa : f a with
    | some b' =>
      rw [hfa] at h
      exact ⟨a, List.mem_cons_self a as, hfa.trans h⟩
    | none =>
      rw [hfa] at h
      obtain ⟨x, hx, hfx⟩ := ih h
      exact ⟨x, List.mem_cons_of_mem a hx, hfx⟩

theorem tier0_shape {t : String} {c : Command} (h : tier0 t = some c) :
    c.action = "VISION_QUERY" ∧ ∃ q, c.query = some (.pstr q) := by
  unfold tier0 at h
  split at h
  · cases h; exact ⟨rfl, _, rfl⟩
  · split at h
    · cases h; exact ⟨rfl, _, rfl⟩
    · split at h
      · cases h; exact ⟨rfl, _, rfl⟩
      · cases h

/-! ## C8: the compound splitter contract -/

/-- C8: `split_compound` scans the four separators in priority order; a
successful split is at the first occurrence of the separator used, both
stripped halves are non-empty, the right half's first word is a command
verb, the single-modifier refusal and the manipulation-verb-plus-pronoun
refusal both failed to fire; `split_compound "write hello and send"` is
`None`, and the separator priority is observable on a nested compound. -/
theorem splitCompound_contract :
    (∀ u ps, split_compound u = some ps →
      ∃ l r, ps = [l, r] ∧ l ≠ "" ∧ r ≠ "" ∧
        (∃ sep ∈ COMPOUND_SEPS, ∃ idx,
          findSub sep.data (lowerStr (pyStrip u)).data = some idx ∧
          l = pyStrip (String.mk ((pyStrip u).data.take idx)) ∧
          r = pyStrip (String.mk ((pyStrip u).data.drop (idx + sep.data.length)))) ∧
        ((pyWords (lowerStr r)).headD "" ∈ COMMAND_VERBS ∧
         ¬((pyWords (lowerStr r)).length ≤ 1 ∧
            (pyWords (lowerStr r)).headD "" ∈ MODIFIER_WORDS) ∧
         ¬((pyWords (lowerStr r)).length = 2 ∧
            (pyWords (lowerStr r)).getD 1 "" ∈ PRONOUN_WORDS ∧
            (pyWords (lowerStr r)).headD "" ∈ MANIP_VERBS))) ∧
    split_compound "write hello and send" = none ∧
    split_compound "open chrome and then search cats and open maps" =
      some ["open chrome", "search cats and open maps"] := by
  refine ⟨?_, by decide, by decide⟩
  intro u ps h
  rw [split_compound] at h
  obtain ⟨sep, hsep, htry⟩ := firstSome_eq_some h
  rw [trySep] at htry
  split at htry
  · exact absurd htry (by simp)
  · next idx hidx =>
    dsimp only at htry
    split_ifs at htry with h1 h2 h3 h4
    injection htry with hps
    rw [not_or] at h1
    exact ⟨_, _, hps.symm, h1.1, h1.2, ⟨sep, hsep, idx, hidx, rfl, rfl⟩, h4, h2, h3⟩

/-! ## C3: Tier-0 regex precedence -/

/-- C3: when the utterance is not an exact cache hit and a Tier-0 fast
path fires, `_classify_single` returns that VISION_QUERY command with the
captured target as its query, for any state of the TF-IDF matcher oracle
and any LLM — the engine state (including the matcher- and LLM-invocation
counters and all stats) is returned untouched. -/
theorem tier0_precedence (mo : MatchOracle) (lo : LLMOracle) (avail : Bool)
    (u : String) (s : EngineState) (c : Command)
    (hcache : cacheLookup s.cache (lowerStr (pyStrip u)) = none)
    (h0 : tier0 (lowerStr (pyStrip u)) = some c) :
    classify_single mo lo avail u s = .ok (some c, s) ∧
    c.action = "VISION_QUERY" ∧ (∃ q, c.query = some (.pstr q)) := by
  by_cases hne : pyStrip u = ""
  · rw [hne, show tier0 (lowerStr "") = none from by decide] at h0
    cases h0
  · refine ⟨?_, tier0_shape h0⟩
    simp only [classify_single, if_neg hne, hcache, h0]

/-! ## C10: cached-label Tier-1 matches bypass the confidence bands -/

/-- C10: if the top Tier-1 match carries a `CACHED:` label whose phrase is
in the learning cache, `_classify_single` resolves through that entry's
action and params, increments `cache_hit`, and never compares the score
against the confidence thresholds (the score is arbitrary here) nor
consults the LLM (the llm-invocation counter is unchanged). -/
theorem cached_label_bypass (mo : MatchOracle) (lo : LLMOracle) (avail : Bool)
    (u : String) (s : EngineState) (sc : ℚ) (lbl ex : String)
    (rest : List (ℚ × String × String)) (entry : CacheEntry)
    (hne : pyStrip u ≠ "")
    (hcache : cacheLookup s.cache (lowerStr (pyStrip u)) = none)
    (h0 : tier0 (lowerStr (pyStrip u)) = none)
    (hmo : mo s.cache (pyStrip u) = (sc, lbl, ex) :: rest)
    (hlbl : strStarts lbl "CACHED:" = true)
    (hentry : cacheLookup s.cache (String.mk (lbl.data.drop 7)) = some entry) :
    classify_single mo lo avail u s =
      (extract entry.action (pyStrip u) (some entry.params)).map
        (fun c => (some c, bumpCacheHit { s with matchCalls := s.matchCalls + 1 })) := by
  simp only [classify_single, if_neg hne, hcache, h0, hmo, classifyMatches, hlbl,
    if_pos, hentry]

/-- Witness for C8 on the spec's compound example. -/
theorem splitCompound_contract_witness :
    split_compound "open chrome and search cats" = some ["open chrome", "search cats"] ∧
    (∃ l r, ["open chrome", "search cats"] = [l, r] ∧ l ≠ "" ∧ r ≠ "" ∧
      (∃ sep ∈ COMPOUND_SEPS, ∃ idx,
        findSub sep.data (lowerStr (pyStrip "open chrome and search cats")).data = some idx ∧
        l = pyStrip (String.mk ((pyStrip "open chrome and search cats").data.take idx)) ∧
        r = pyStrip (String.mk
          ((pyStrip "open chrome and search cats").data.drop (idx + sep.data.length)))) ∧
      ((pyWords (lowerStr r)).headD "" ∈ COMMAND_VERBS ∧
       ¬((pyWords (lowerStr r)).length ≤ 1 ∧
          (pyWords (lowerStr r)).headD "" ∈ MODIFIER_WORDS) ∧
       ¬((pyWords (lowerStr r)).length = 2 ∧
          (pyWords (lowerStr r)).getD 1 "" ∈ PRONOUN_WORDS ∧
          (pyWords (lowerStr r)).headD "" ∈ MANIP_VERBS))) :=
  ⟨by decide,
   splitCompound_contract.1 "open chrome and search cats"
     ["open chrome", "search cats"] (by decide)⟩

/-- Witness for C3: the spec's seeded-index scenario, where a stubbed
matcher ranks a wrong action at 0.99 for every query and the engine still
answers `VISION_QUERY "4th mail"` without consulting matcher or LLM. -/
theorem tier0_precedence_witness :
    classify_single stubWrongActionMatch stubBlastLLM true "tap on 4th mail" {} =
      .ok (some { action := "VISION_QUERY", query := some (.pstr "4th mail") }, {}) ∧
    strContains "4th mail" "4th mail" = true :=
  ⟨(tier0_precedence stubWrongActionMatch stubBlastLLM true "tap on 4th mail" {}
      { action := "VISION_QUERY", query := some (.pstr "4th mail") }
      (by decide) (by decide)).1,
   by decide⟩

/-- Witness for C10: a 0.01-scoring cached-label top match still resolves
through the cache entry and bumps `cache_hit`. -/
theorem cached_label_bypass_witness :
    classify_single stubCachedLabelMatch stubNoLLM true "turn it way up"
        { cache := demoCache } =
      .ok (some { action := "VOLUME_UP", amount := 5 },
        { cache := demoCache, stats := { cache_hit := 1 }, matchCalls := 1 }) :=
  (cached_label_bypass stubCachedLabelMatch stubNoLLM true "turn it way up"
    { cache := demoCache } (mkRat 1 100) "CACHED:blast it" "blast it" []
    ⟨"VOLUME_UP", [("amount", .pint 5)], "llm", []⟩
    (by decide) (by decide) (by decide) (by decide) (by decide) (by decide)).trans
    (by decide)

/-! ## C2: compound fan-out with the at-least-two rule -/

/-- C2: whenever `split_compound` splits the utterance (always into two
halves), `understand` returns the MULTI_STEP command joining the halves
with a pipe exactly when both sub-utterances independently resolve through
the cascade; when fewer than two resolve, the original utterance is
classified whole (from the state left by the sub-classifications). -/
theorem compound_fanout (mo : MatchOracle) (lo : LLMOracle) (avail : Bool)
    (u l r : String) (s s1 s2 : EngineState) (r1 r2 : Option Command)
    (hsplit : split_compound (pyStrip u) = some [l, r])
    (h1 : classify_single mo lo avail l s = .ok (r1, s1))
    (h2 : classify_single mo lo avail r s1 = .ok (r2, s2)) :
    (r1.isSome ∧ r2.isSome →
      understand mo lo avail u s =
        .ok (some { action := "MULTI_STEP", query := some (.pstr (l ++ "|" ++ r)) }, s2)) ∧
    (¬(r1.isSome ∧ r2.isSome) →
      understand mo lo avail u s = classify_single mo lo avail (pyStrip u) s2) := by
  have hne : pyStrip u ≠ "" := by
    intro he
    rw [he, show split_compound "" = none from by decide] at hsplit
    cases hsplit
  constructor
  · rintro ⟨ha, hb⟩
    simp only [understand, if_neg hne, hsplit, List.length_cons, List.length_nil,
      collectValid, h1, h2, ha, hb, if_pos, joinPipe, List.append_nil]
    norm_num [joinPipe]
  · intro hn
    rcases r1 with _ | c1 <;> rcases r2 with _ | c2
    · simp only [understand, if_neg hne, hsplit, List.length_cons, List.length_nil,
        collectValid, h1, h2, Option.isSome_none, Bool.false_eq_true, if_false,
        List.nil_append, List.append_nil, List.length_nil]
      norm_num
    · simp only [understand, if_neg hne, hsplit, List.length_cons, List.length_nil,
        collectValid, h1, h2, Option.isSome_none, Option.isSome_some,
        Bool.false_eq_true, if_false, if_true, List.nil_append, List.append_nil]
      norm_num
    · simp only [understand, if_neg hne, hsplit, List.length_cons, List.length_nil,
        collectValid, h1, h2, Option.isSome_none, Option.isSome_some,
        Bool.false_eq_true, if_false, if_true, List.nil_append, List.append_nil]
      norm_num
    · exact absurd ⟨rfl, rfl⟩ hn

/-- Witness for C2 on the spec's example: both halves of
"open chrome and search cats" resolve, so MULTI_STEP comes back with the
piped sub-utterances. -/
theorem compound_fanout_witness :
    understand stubTwoPartMatch stubNoLLM false "open chrome and search cats" {} =
      .ok (some { action := "MULTI_STEP",
                  query := some (.pstr ("open chrome" ++ "|" ++ "search cats")) },
        { stats := { tier1 := 2 }, matchCalls := 2 }) :=
  (compound_fanout stubTwoPartMatch stubNoLLM false "open chrome and search cats"
    "open chrome" "search cats" {}
    { stats := { tier1 := 1 }, matchCalls := 1 }
    { stats := { tier1 := 2 }, matchCalls := 2 }
    (some { action := "OPEN_APP", query := some (.pstr "chrome") })
    (some { action := "SEARCH_IN_APP", query := some (.pstr "cats") })
    (by decide) (by decide) (by decide)).1 (by decide)

/-! ## C4: unknown-action rejection at the LLM boundary -/

theorem classifyFloor_reset (raw : String) (ms : List (ℚ × String × String))
    (s : EngineState) (k : Nat) :
    (classifyFloor raw ms { s with llmCalls := k }).map
        (fun p => (p.1, { p.2 with llmCalls := s.llmCalls })) =
      classifyFloor raw ms s := by
  cases ms with
  | nil => rfl
  | cons e rest =>
    obtain ⟨sc, act, ex⟩ := e
    simp only [classifyFloor]
    split_ifs
    · cases extract act raw none <;> rfl
    · rfl

theorem classifyBottom_reset (lo : LLMOracle) (raw : String)
    (hnone : llmClassify true lo raw = none) (ms : List (ℚ × String × String))
    (s : EngineState) :
    (classifyBottom lo true raw ms s).map
        (fun p => (p.1, { p.2 with llmCalls := s.llmCalls })) =
      classifyBottom lo false raw ms s := by
  simp only [classifyBottom, tier2_classify, hnone, if_true, if_false]
  exact classifyFloor_reset raw ms s (s.llmCalls + 1)

theorem classifyMatches_reset (lo : LLMOracle) (raw : String)
    (hnone : llmClassify true lo raw = none) (ms : List (ℚ × String × String))
    (s : EngineState) :
    (classifyMatches lo true raw ms s).map
        (fun p => (p.1, { p.2 with llmCalls := s.llmCalls })) =
      classifyMatches lo false raw ms s := by
  cases ms with
  | nil =>
    simp only [classifyMatches]
    exact classifyBottom_reset lo raw hnone [] s
  | cons e rest =>
    obtain ⟨sc, lbl, ex⟩ := e
    simp only [classifyMatches]
    set scrut := (if strStarts lbl "CACHED:" then
        cacheLookup s.cache (String.mk (lbl.data.drop 7)) else none) with hscrut
    clear_value scrut
    cases scrut with
    | some entry =>
      dsimp only
      cases extract entry.action raw (some entry.params) <;> rfl
    | none =>
      dsimp only
      by_cases hconf : TIER1_CONFIDENT ≤ sc
      · rw [if_pos hconf, if_pos hconf]
        cases extract lbl raw none <;> rfl
      · rw [if_neg hconf, if_neg hconf]
        by_cases hunc : TIER1_UNCERTAIN ≤ sc
        · rw [if_pos hunc, if_pos hunc]
          simp only [if_true, if_false, Bool.false_eq_true, tier2_classify, hnone]
          cases extract lbl raw none <;> rfl
        · rw [if_neg hunc, if_neg hunc]
          exact classifyBottom_reset lo raw hnone _ s

theorem classify_single_llm_fallback (mo : MatchOracle) (lo : LLMOracle)
    (u : String) (s : EngineState)
    (hnone : llmClassify true lo (pyStrip u) = none) :
    (classify_single mo lo true u s).map
        (fun p => (p.1, { p.2 with llmCalls := s.llmCalls })) =
      classify_single mo lo false u s := by
  by_cases hne : pyStrip u = ""
  · simp only [classify_single, if_pos hne]; rfl
  · simp only [classify_single, if_neg hne]
    cases hc : cacheLookup s.cache (lowerStr (pyStrip u)) with
    | some entry =>
      dsimp only
      cases extract entry.action (pyStrip u) (some entry.params) <;> rfl
    | none =>
      dsimp only
      cases h0 : tier0 (lowerStr (pyStrip u)) with
      | some c => rfl
      | none =>
        dsimp only
        exact classifyMatches_reset lo (pyStrip u) hnone (mo s.cache (pyStrip u))
          { s with matchCalls := s.matchCalls + 1 }

/-- C4: `classify` validates defensively: an unparseable reply (the
decoded oracle yields nothing) and an `action` outside the closed
`ACTION_DESCRIPTIONS` enumeration both yield `None`; consequently a
classify-returns-`None` engine run is observably identical to a run with
the LLM unavailable (same result, same cache, same stats — only the
LLM invocation counter differs), i.e. the Tier-1 best guess or a miss. -/
theorem llm_unknown_action_rejection :
    (∀ d : List (String × PyVal),
      (∀ a, dGet d "action" = some (.pstr a) → a ∉ ACTION_DESCRIPTION_KEYS) →
      validateLLM d = none) ∧
    (∀ (lo : LLMOracle) (u : String), lo u = none → llmClassify true lo u = none) ∧
    (∀ (mo : MatchOracle) (lo : LLMOracle) (u : String) (s : EngineState),
      llmClassify true lo (pyStrip u) = none →
      (classify_single mo lo true u s).map
          (fun p => (p.1, { p.2 with llmCalls := s.llmCalls })) =
        classify_single mo lo false u s) := by
  refine ⟨?_, ?_, fun mo lo u s h => classify_single_llm_fallback mo lo u s h⟩
  · intro d hbad
    rw [validateLLM]
    cases hd : dGet d "action" with
    | none => rfl
    | some v =>
      cases v with
      | pstr a => simp [hbad a hd]
      | pint n => rfl
  · intro lo u h
    simp [llmClassify, h]

/-- Witness for C4 with the spec's `DELETE_EVERYTHING` stub. -/
theorem llm_unknown_action_rejection_witness :
    validateLLM [("action", .pstr "DELETE_EVERYTHING")] = none ∧
    (classify_single stubEmptyMatch stubInvalidActionLLM true "frobnicate the screen"
        {}).map
        (fun p => (p.1, { p.2 with llmCalls := ({} : EngineState).llmCalls })) =
      classify_single stubEmptyMatch stubInvalidActionLLM false "frobnicate the screen"
        {} :=
  ⟨llm_unknown_action_rejection.1 _ (by
     intro a ha
     rw [show dGet [("action", PyVal.pstr "DELETE_EVERYTHING")] "action" =
         some (.pstr "DELETE_EVERYTHING") from rfl] at ha
     cases ha
     decide),
   llm_unknown_action_rejection.2.2 stubEmptyMatch stubInvalidActionLLM
     "frobnicate the screen" {} (by decide)⟩

/-! ## C7: the volume amount extraction rule -/

theorem extract_volume_eq (a : String) (ha : a = "VOLUME_UP" ∨ a = "VOLUME_DOWN")
    (u : String) (lp : Option (List (String × PyVal))) :
    extract a u lp = extractVolume a (lowerStr (pyStrip u)).data lp := by
  rcases ha with rfl | rfl <;>
    · simp only [extract]
      rw [if_neg (by decide), if_neg (by decide), if_pos (by decide)]

theorem extract_volume_max_eq (u : String) (lp : Option (List (String × PyVal))) :
    extract "VOLUME_MAX" u lp = .ok { action := "VOLUME_UP", amount := 15 } := by
  simp only [extract]
  rw [if_neg (by decide), if_pos (by decide)]

/-- C7: for VOLUME_UP / VOLUME_DOWN the extracted amount prefers a truthy
LLM-provided amount (converted with `int()`), else the first digit run in
the utterance, else 5 on a magnitude keyword (more/lot/much), else the
default 2; VOLUME_MAX maps to the relative command VOLUME_UP with the
fixed large step 15; through the engine, a confident Tier-1 match on
"volume up" yields amount 2 and on "volume up a lot" amount 5. -/
theorem volume_amount_rule :
    (∀ u lp, extract "VOLUME_MAX" u lp = .ok { action := "VOLUME_UP", amount := 15 }) ∧
    (∀ a u lp v n, (a = "VOLUME_UP" ∨ a = "VOLUME_DOWN") →
      lpGetTruthy lp "amount" = some v → pyToInt v = some n →
      extract a u lp = .ok { action := a, amount := n }) ∧
    (∀ a u lp n, (a = "VOLUME_UP" ∨ a = "VOLUME_DOWN") →
      lpGetTruthy lp "amount" = none →
      firstDigitRun (lowerStr (pyStrip u)).data = some n →
      extract a u lp = .ok { action := a, amount := (n : Int) }) ∧
    (∀ a u lp, (a = "VOLUME_UP" ∨ a = "VOLUME_DOWN") →
      lpGetTruthy lp "amount" = none →
      firstDigitRun (lowerStr (pyStrip u)).data = none →
      VOLUME_KEYWORDS.any (fun w => hasSub w.data (lowerStr (pyStrip u)).data) = true →
      extract a u lp = .ok { action := a, amount := 5 }) ∧
    (∀ a u lp, (a = "VOLUME_UP" ∨ a = "VOLUME_DOWN") →
      lpGetTruthy lp "amount" = none →
      firstDigitRun (lowerStr (pyStrip u)).data = none →
      VOLUME_KEYWORDS.any (fun w => hasSub w.data (lowerStr (pyStrip u)).data) = false →
      extract a u lp = .ok { action := a, amount := 2 }) ∧
    (∀ (mo : MatchOracle) (lo : LLMOracle) (avail : Bool) (s : EngineState)
       (sc : ℚ) (ex : String) (rest : List (ℚ × String × String)),
      cacheLookup s.cache "volume up" = none →
      mo s.cache "volume up" = (sc, "VOLUME_UP", ex) :: rest →
      TIER1_CONFIDENT ≤ sc →
      understand mo lo avail "volume up" s =
        .ok (some { action := "VOLUME_UP", amount := 2 },
          bumpTier1 { s with matchCalls := s.matchCalls + 1 })) ∧
    (∀ (mo : MatchOracle) (lo : LLMOracle) (avail : Bool) (s : EngineState)
       (sc : ℚ) (ex : String) (rest : List (ℚ × String × String)),
      cacheLookup s.cache "volume up a lot" = none →
      mo s.cache "volume up a lot" = (sc, "VOLUME_UP", ex) :: rest →
      TIER1_CONFIDENT ≤ sc →
      understand mo lo avail "volume up a lot" s =
        .ok (some { action := "VOLUME_UP", amount := 5 },
          bumpTier1 { s with matchCalls := s.matchCalls + 1 })) := by
  refine ⟨fun u lp => extract_volume_max_eq u lp, ?_, ?_, ?_, ?_, ?_, ?_⟩
  · intro a u lp v n ha hv hn
    rw [extract_volume_eq a ha]
    simp [extractVolume, hv, hn]
  · intro a u lp n ha hv hn
    rw [extract_volume_eq a ha]
    simp [extractVolume, hv, hn]
  · intro a u lp ha hv hn hk
    rw [extract_volume_eq a ha]
    simp [extractVolume, hv, hn, hk]
  · intro a u lp ha hv hn hk
    rw [extract_volume_eq a ha]
    simp [extractVolume, hv, hn, hk]
  · intro mo lo avail s sc ex rest hc hmo hsc
    simp only [understand, show pyStrip "volume up" = "volume up" from rfl,
      show split_compound "volume up" = none from by decide,
      show lowerStr "volume up" = "volume up" from by decide,
      show tier0 "volume up" = none from by decide,
      classify_single, hc, hmo, classifyMatches,
      show strStarts "VOLUME_UP" "CACHED:" = false from by decide]
    simp only [Bool.false_eq_true, if_false, if_pos hsc]
    rw [show extract "VOLUME_UP" "volume up" none =
        .ok { action := "VOLUME_UP", amount := 2 } from by decide]
    rfl
  · intro mo lo avail s sc ex rest hc hmo hsc
    simp only [understand, show pyStrip "volume up a lot" = "volume up a lot" from rfl,
      show split_compound "volume up a lot" = none from by decide,
      show lowerStr "volume up a lot" = "volume up a lot" from by decide,
      show tier0 "volume up a lot" = none from by decide,
      classify_single, hc, hmo, classifyMatches,
      show strStarts "VOLUME_UP" "CACHED:" = false from by decide]
    simp only [Bool.false_eq_true, if_false, if_pos hsc]
    rw [show extract "VOLUME_UP" "volume up a lot" none =
        .ok { action := "VOLUME_UP", amount := 5 } from by decide]
    rfl

/-- Witness for C7: the spec's two volume examples through the engine,
and the LLM-hint preference on "blast it". -/
theorem volume_amount_rule_witness :
    understand stubVolumeMatch stubNoLLM false "volume up" {} =
      .ok (some { action := "VOLUME_UP", amount := 2 },
        bumpTier1 { matchCalls := 1 }) ∧
    understand stubVolumeMatch stubNoLLM false "volume up a lot" {} =
      .ok (some { action := "VOLUME_UP", amount := 5 },
        bumpTier1 { matchCalls := 1 }) ∧
    extract "VOLUME_UP" "blast it" (some [("amount", .pint 5)]) =
      .ok { action := "VOLUME_UP", amount := 5 } ∧
    extract "VOLUME_MAX" "blast it" none = .ok { action := "VOLUME_UP", amount := 15 } :=
  ⟨volume_amount_rule.2.2.2.2.2.1 stubVolumeMatch stubNoLLM false {} (mkRat 9 10)
     "volume up" [] (by decide) (by decide) (by decide),
   volume_amount_rule.2.2.2.2.2.2 stubVolumeMatch stubNoLLM false {} (mkRat 9 10)
     "volume up a lot" [] (by decide) (by decide) (by decide),
   volume_amount_rule.2.1 "VOLUME_UP" "blast it" (some [("amount", .pint 5)])
     (.pint 5) 5 (Or.inl rfl) (by decide) (by decide),
   volume_amount_rule.1 "blast it" none⟩

/-! ## C5: extractor totality -/

/-- An if-then-else whose then-branch is `.ok` and whose else-branch is
total is total. -/
theorem ite_ok {c : Prop} [Decidable c] {x : Command} {r : Except Unit Command}
    (h : ∃ y, r = .ok y) : ∃ y, (if c then Except.ok x else r) = .ok y := by
  split
  · exact ⟨x, rfl⟩
  · exact h

/-- Counterexample to C5 as stated: a truthy but non-numeric LLM `amount`
hint makes `int(llm_params["amount"])` raise inside the volume branch, so
extraction is not exception-free for every hint map. -/
theorem extract_total_counterexample :
    extract "VOLUME_UP" "volume up" (some [("amount", .pstr "loud")]) = .error () := by
  decide

set_option maxHeartbeats 2000000 in
/-- Extraction succeeds whenever a truthy LLM amount hint (only consulted
by the volume branch) converts under `int()`. -/
theorem extract_ok (a u : String) (lp : Option (List (String × PyVal)))
    (hs : a = "VOLUME_UP" ∨ a = "VOLUME_DOWN" → amountHintSafe lp) :
    ∃ c, extract a u lp = .ok c := by
  by_cases hv1 : a = "VOLUME_UP" ∨ a = "VOLUME_DOWN"
  · rw [extract_volume_eq a hv1]
    unfold extractVolume
    cases hv : lpGetTruthy lp "amount" with
    | some v =>
      dsimp only
      obtain ⟨n, hn⟩ := Option.isSome_iff_exists.mp (hs hv1 v hv)
      exact ⟨{ action := a, amount := n }, by simp only [hn]⟩
    | none =>
      cases hd : firstDigitRun (lowerStr (pyStrip u)).data with
      | some n => exact ⟨_, rfl⟩
      | none =>
        dsimp only
        split_ifs <;> exact ⟨_, rfl⟩
  · unfold extract
    dsimp only
    by_cases h1 : a ∈ NO_PARAM_ACTIONS
    · rw [if_pos h1]; exact ⟨_, rfl⟩
    rw [if_neg h1]
    by_cases h2 : a = "VOLUME_MAX"
    · rw [if_pos h2]; exact ⟨_, rfl⟩
    rw [if_neg h2, if_neg hv1]
    repeat' refine ite_ok ?_
    exact ⟨_, rfl⟩

set_option maxHeartbeats 2000000 in
/-- C5 (amended): extraction never raises for any action, utterance and
hint map whose truthy `amount` hint (if any) converts under `int()`; and
when no extraction template matches, the entire raw utterance is used as
the query — shown for the FIND_APP verb cascade. -/
theorem extract_total (a u : String) (lp : Option (List (String × PyVal)))
    (hs : amountHintSafe lp) :
    (∃ c, extract a u lp = .ok c) ∧
    (pyAfter (lowerStr (pyStrip u)) FINDAPP_VERBS = none →
      extract "FIND_APP" u lp = .ok { action := "FIND_APP", query := some (.pstr (pyStrip u)) }) := by
  refine ⟨extract_ok a u lp (fun _ => hs), ?_⟩
  intro h
  simp only [extract]
  rw [if_neg (by decide), if_neg (by decide), if_neg (by decide), if_neg (by decide),
    if_neg (by decide), if_neg (by decide), if_neg (by decide), if_pos (by decide)]
  simp [h]

/-- Witness for C5 (amended) on the FIND_APP fallback path. -/
theorem extract_total_witness :
    (∃ c, extract "FIND_APP" "open sesame" none = .ok c) ∧
    extract "FIND_APP" "open sesame" none =
      .ok { action := "FIND_APP", query := some (.pstr "open sesame") } :=
  ⟨(extract_total "FIND_APP" "open sesame" none
      (by intro v hv; simp [lpGetTruthy] at hv)).1,
   ((extract_total "FIND_APP" "open sesame" none
      (by intro v hv; simp [lpGetTruthy] at hv)).2 (by decide)).trans (by decide)⟩

/-! ## C6: stats counters -/

/-- Counterexample to C6 as stated: a Tier-0 fast-path resolution returns
a command while leaving every stats counter untouched (the final state
equals the zero-counter initial state). -/
theorem stats_once_counterexample :
    understand stubEmptyMatch stubNoLLM false "tap on 4th mail" {} =
      .ok (some { action := "VISION_QUERY", query := some (.pstr "4th mail") }, {}) ∧
    ({} : EngineState).stats = { tier1 := 0, tier2 := 0, cache_hit := 0, miss := 0 } :=
  ⟨by decide, rfl⟩

theorem statsOneBump_tier1 (s : Stats) : statsOneBump s { s with tier1 := s.tier1 + 1 } := by
  unfold statsOneBump
  dsimp only
  omega

theorem statsOneBump_tier2 (s : Stats) : statsOneBump s { s with tier2 := s.tier2 + 1 } := by
  unfold statsOneBump
  dsimp only
  omega

theorem statsOneBump_cache_hit (s : Stats) :
    statsOneBump s { s with cache_hit := s.cache_hit + 1 } := by
  unfold statsOneBump
  dsimp only
  omega

theorem statsOneBump_miss (s : Stats) : statsOneBump s { s with miss := s.miss + 1 } := by
  unfold statsOneBump
  dsimp only
  omega

theorem map_ok_inv {e : Except Unit Command} {f : Command → Option Command × EngineState}
    {r : Option Command} {s' : EngineState} (h : e.map f = .ok (r, s')) :
    ∃ c, e = .ok c ∧ f c = (r, s') := by
  cases e with
  | error a => cases h
  | ok c =>
    refine ⟨c, rfl, ?_⟩
    injection h

theorem classifyFloor_stats {raw : String} {ms : List (ℚ × String × String)}
    {s : EngineState} {r : Option Command} {s' : EngineState}
    (h : classifyFloor raw ms s = .ok (r, s')) :
    statsOneBump s.stats s'.stats ∧ (r = none ↔ s'.stats.miss = s.stats.miss + 1) := by
  cases ms with
  | nil =>
    simp only [classifyFloor, Except.ok.injEq, Prod.mk.injEq] at h
    obtain ⟨rfl, rfl⟩ := h
    exact ⟨statsOneBump_miss _, by simp [bumpMiss]⟩
  | cons e rest =>
    obtain ⟨sc, act, ex⟩ := e
    simp only [classifyFloor] at h
    split_ifs at h
    · obtain ⟨c, he, hfc⟩ := map_ok_inv h
      rw [Prod.mk.injEq] at hfc
      obtain ⟨rfl, rfl⟩ := hfc
      exact ⟨statsOneBump_tier1 _, by simp [bumpTier1]⟩
    · simp only [Except.ok.injEq, Prod.mk.injEq] at h
      obtain ⟨rfl, rfl⟩ := h
      exact ⟨statsOneBump_miss _, by simp [bumpMiss]⟩

theorem tier2_classify_stats {lo : LLMOracle} {avail : Bool} {raw : String}
    {s : EngineState} {r : Option Command} {s' : EngineState}
    (h : tier2_classify lo avail raw s = .ok (r, s')) :
    (r = none ∧ s'.stats = s.stats) ∨
    ((∃ c, r = some c) ∧ s'.stats = { s.stats with tier2 := s.stats.tier2 + 1 }) := by
  rw [tier2_classify] at h
  cases hcl : llmClassify avail lo raw with
  | none =>
    rw [hcl] at h
    simp only [Except.ok.injEq, Prod.mk.injEq] at h
    obtain ⟨rfl, rfl⟩ := h
    exact Or.inl ⟨rfl, rfl⟩
  | some data =>
    rw [hcl] at h
    dsimp only at h
    obtain ⟨c, he, hfc⟩ := map_ok_inv h
    rw [Prod.mk.injEq] at hfc
    obtain ⟨rfl, rfl⟩ := hfc
    exact Or.inr ⟨⟨c, rfl⟩, rfl⟩

theorem classifyBottom_stats {lo : LLMOracle} {avail : Bool} {raw : String}
    {ms : List (ℚ × String × String)} {s : EngineState} {r : Option Command}
    {s' : EngineState} (h : classifyBottom lo avail raw ms s = .ok (r, s')) :
    statsOneBump s.stats s'.stats ∧ (r = none ↔ s'.stats.miss = s.stats.miss + 1) := by
  rw [classifyBottom] at h
  cases avail with
  | false =>
    rw [if_neg (by simp)] at h
    exact classifyFloor_stats h
  | true =>
    rw [if_pos rfl] at h
    cases ht : tier2_classify lo true raw s with
    | error e => rw [ht] at h; cases h
    | ok p =>
      obtain ⟨r1, s1⟩ := p
      rw [ht] at h
      cases r1 with
      | some c =>
        simp only [Except.ok.injEq, Prod.mk.injEq] at h
        obtain ⟨rfl, rfl⟩ := h
        rcases tier2_classify_stats ht with ⟨hn, _⟩ | ⟨⟨c', hc'⟩, hst⟩
        · cases hn
        · rw [hst]
          exact ⟨statsOneBump_tier2 _, by simp⟩
      | none =>
        dsimp only at h
        rcases tier2_classify_stats ht with ⟨_, hst⟩ | ⟨⟨c', hc'⟩, _⟩
        · have := classifyFloor_stats h
          rw [hst] at this
          exact this
        · cases hc'

theorem classifyMatches_stats {lo : LLMOracle} {avail : Bool} {raw : String}
    {ms : List (ℚ × String × String)} {s : EngineState} {r : Option Command}
    {s' : EngineState} (h : classifyMatches lo avail raw ms s = .ok (r, s')) :
    statsOneBump s.stats s'.stats ∧ (r = none ↔ s'.stats.miss = s.stats.miss + 1) := by
  cases ms with
  | nil =>
    simp only [classifyMatches] at h
    exact classifyBottom_stats h
  | cons e rest =>
    obtain ⟨sc, lbl, ex⟩ := e
    simp only [classifyMatches] at h
    set scrut := (if strStarts lbl "CACHED:" then
        cacheLookup s.cache (String.mk (lbl.data.drop 7)) else none) with hscrut
    clear_value scrut
    cases scrut with
    | some entry =>
      dsimp only at h
      obtain ⟨c, he, hfc⟩ := map_ok_inv h
      rw [Prod.mk.injEq] at hfc
      obtain ⟨rfl, rfl⟩ := hfc
      exact ⟨statsOneBump_cache_hit _, by simp [bumpCacheHit]⟩
    | none =>
      dsimp only at h
      by_cases hconf : TIER1_CONFIDENT ≤ sc
      · rw [if_pos hconf] at h
        obtain ⟨c, he, hfc⟩ := map_ok_inv h
        rw [Prod.mk.injEq] at hfc
        obtain ⟨rfl, rfl⟩ := hfc
        exact ⟨statsOneBump_tier1 _, by simp [bumpTier1]⟩
      · rw [if_neg hconf] at h
        by_cases hunc : TIER1_UNCERTAIN ≤ sc
        · rw [if_pos hunc] at h
          cases avail with
          | false =>
            rw [if_neg (by simp)] at h
            obtain ⟨c, he, hfc⟩ := map_ok_inv h
            rw [Prod.mk.injEq] at hfc
            obtain ⟨rfl, rfl⟩ := hfc
            exact ⟨statsOneBump_tier1 _, by simp [bumpTier1]⟩
          | true =>
            rw [if_pos rfl] at h
            cases ht : tier2_classify lo true raw s with
            | error e => rw [ht] at h; cases h
            | ok p =>
              obtain ⟨r1, s1⟩ := p
              rw [ht] at h
              cases r1 with
              | some c =>
                simp only [Except.ok.injEq, Prod.mk.injEq] at h
                obtain ⟨rfl, rfl⟩ := h
                rcases tier2_classify_stats ht with ⟨hn, _⟩ | ⟨⟨c', hc'⟩, hst⟩
                · cases hn
                · rw [hst]
                  exact ⟨statsOneBump_tier2 _, by simp⟩
              | none =>
                dsimp only at h
                obtain ⟨c, he, hfc⟩ := map_ok_inv h
                rw [Prod.mk.injEq] at hfc
                obtain ⟨rfl, rfl⟩ := hfc
                rcases tier2_classify_stats ht with ⟨_, hst⟩ | ⟨⟨c', hc'⟩, _⟩
                · rw [show (bumpTier1 s1).stats =
                      { s1.stats with tier1 := s1.stats.tier1 + 1 } from rfl, hst]
                  exact ⟨statsOneBump_tier1 _, by simp⟩
                · cases hc'
        · rw [if_neg hunc] at h
          exact classifyBottom_stats h

theorem classify_single_stats {mo : MatchOracle} {lo : LLMOracle} {avail : Bool}
    {u : String} {s : EngineState} {r : Option Command} {s' : EngineState}
    (hne : pyStrip u ≠ "")
    (ht0 : cacheLookup s.cache (lowerStr (pyStrip u)) = none →
      tier0 (lowerStr (pyStrip u)) = none)
    (h : classify_single mo lo avail u s = .ok (r, s')) :
    statsOneBump s.stats s'.stats ∧ (r = none ↔ s'.stats.miss = s.stats.miss + 1) := by
  simp only [classify_single, if_neg hne] at h
  cases hc : cacheLookup s.cache (lowerStr (pyStrip u)) with
  | some entry =>
    rw [hc] at h
    dsimp only at h
    obtain ⟨c, he, hfc⟩ := map_ok_inv h
    rw [Prod.mk.injEq] at hfc
    obtain ⟨rfl, rfl⟩ := hfc
    exact ⟨statsOneBump_cache_hit _, by simp [bumpCacheHit]⟩
  | none =>
    rw [hc, ht0 hc] at h
    dsimp only at h
    exact @classifyMatches_stats lo avail (pyStrip u) (mo s.cache (pyStrip u))
      { s with matchCalls := s.matchCalls + 1 } r s' h

theorem trimChars_idem (cs : List Char) : trimChars (trimChars cs) = trimChars cs := by
  have he : ∀ l : List Char,
      trimChars l = List.rdropWhile isWsChar (l.dropWhile isWsChar) := fun _ => rfl
  rw [he, he]
  obtain ⟨t, ht⟩ := List.rdropWhile_prefix isWsChar (cs.dropWhile isWsChar)
  have hd : List.dropWhile isWsChar
      (List.rdropWhile isWsChar (cs.dropWhile isWsChar)) =
      List.rdropWhile isWsChar (cs.dropWhile isWsChar) := by
    cases hB : List.rdropWhile isWsChar (cs.dropWhile isWsChar) with
    | nil => rfl
    | cons b bs =>
      have hA : List.dropWhile isWsChar cs = b :: (bs ++ t) := by
        rw [← ht, hB, List.cons_append]
      have hnb : isWsChar b = false := by
        by_contra hc
        rw [Bool.not_eq_false] at hc
        have hid := List.dropWhile_idempotent isWsChar cs
        rw [hA, List.dropWhile_cons, if_pos hc] at hid
        have hsuf : List.dropWhile isWsChar (bs ++ t) <:+ (bs ++ t) :=
          List.dropWhile_suffix _
        have hlen := hsuf.length_le
        rw [hid] at hlen
        simp at hlen
      rw [List.dropWhile_cons, if_neg (by simp [hnb])]
  rw [hd, List.rdropWhile_idempotent]

theorem pyStrip_idem (s : String) : pyStrip (pyStrip s) = pyStrip s :=
  congrArg String.mk (trimChars_idem s.data)

/-- C6 (amended): a nonempty, non-compound `understand()` call that is not
resolved by the Tier-0 regex fast path increments exactly one of the four
counters exactly once, namely the one of its resolution path, and the
miss counter is the one incremented precisely when no command comes back;
Tier-0 resolutions return a command without touching any counter (see the
counterexample), compound fan-outs increment one counter per
sub-classification, and empty input increments nothing. -/
theorem stats_exactly_once (mo : MatchOracle) (lo : LLMOracle) (avail : Bool)
    (u : String) (s s' : EngineState) (r : Option Command)
    (hne : pyStrip u ≠ "")
    (hsplit : split_compound (pyStrip u) = none)
    (ht0 : cacheLookup s.cache (lowerStr (pyStrip u)) = none →
      tier0 (lowerStr (pyStrip u)) = none)
    (hrun : understand mo lo avail u s = .ok (r, s')) :
    statsOneBump s.stats s'.stats ∧ (r = none ↔ s'.stats.miss = s.stats.miss + 1) := by
  rw [understand, if_neg hne, hsplit] at hrun
  dsimp only at hrun
  have h1 : pyStrip (pyStrip u) ≠ "" := by rw [pyStrip_idem]; exact hne
  have h2 : cacheLookup s.cache (lowerStr (pyStrip (pyStrip u))) = none →
      tier0 (lowerStr (pyStrip (pyStrip u))) = none := by rw [pyStrip_idem]; exact ht0
  exact classify_single_stats h1 h2 hrun

/-- Witness for C6 (amended): a confident Tier-1 resolution bumps exactly
one counter, and the bump is not on `miss`. -/
theorem stats_exactly_once_witness :
    statsOneBump ({} : EngineState).stats (bumpTier1 { matchCalls := 1 } : EngineState).stats ∧
    ((some { action := "VOLUME_UP", amount := 2 } : Option Command) = none ↔
      (bumpTier1 { matchCalls := 1 } : EngineState).stats.miss =
        ({} : EngineState).stats.miss + 1) :=
  stats_exactly_once stubVolumeMatch stubNoLLM false "volume up" {} _ _
    (by decide) (by decide) (fun _ => by decide) (by decide)

/-! ## C1: tier promotion and cache idempotence -/

theorem extract_send_action (raw : String) :
    (extract_send raw).action = "SEND_MESSAGE" := by
  unfold extract_send
  dsimp only
  repeat' split
  all_goals rfl

theorem extract_search_action (raw : String) :
    (extract_search raw).action = "SEARCH_IN_APP" := by
  unfold extract_search
  dsimp only
  repeat' split
  all_goals rfl

theorem extract_content_action (raw : String) :
    (extract_content raw).action = "OPEN_CONTENT_IN_APP" := by
  unfold extract_content
  dsimp only
  repeat' split
  all_goals rfl

theorem extractScroll_action (a : String) (t : List Char) :
    (extractScroll a t).action = "SCROLL" := rfl

theorem extractVolume_action {a : String} {t : List Char}
    {lp : Option (List (String × PyVal))} {c : Command}
    (h : extractVolume a t lp = .ok c) : c.action = a := by
  unfold extractVolume at h
  repeat' split at h
  all_goals first
    | (simp only [Except.ok.injEq] at h; subst h; rfl)
    | exact absurd h (by simp)

set_option maxHeartbeats 2000000 in
/-- The action label of an extracted command depends only on the action
and the utterance, never on the LLM hint map. -/
theorem extract_action {a u : String} {lp : Option (List (String × PyVal))}
    {c : Command} (h : extract a u lp = .ok c) : c.action = okAction a u := by
  unfold extract at h
  unfold okAction
  dsimp only at h ⊢
  by_cases h1 : a ∈ NO_PARAM_ACTIONS
  · rw [if_pos h1] at h ⊢
    simp only [Except.ok.injEq] at h; subst h; rfl
  rw [if_neg h1] at h ⊢
  by_cases h2 : a = "VOLUME_MAX"
  · rw [if_pos h2] at h ⊢
    simp only [Except.ok.injEq] at h; subst h; rfl
  rw [if_neg h2] at h ⊢
  by_cases h3 : a = "VOLUME_UP" ∨ a = "VOLUME_DOWN"
  · rw [if_pos h3] at h ⊢
    exact extractVolume_action h
  rw [if_neg h3] at h ⊢
  by_cases h4 : a = "BRIGHTNESS_UP" ∨ a = "BRIGHTNESS_DOWN"
  · rw [if_pos h4] at h ⊢
    simp only [Except.ok.injEq] at h; subst h; rfl
  rw [if_neg h4] at h ⊢
  by_cases h5 : strStarts a "SCROLL_" = true
  · rw [if_pos h5] at h ⊢
    simp only [Except.ok.injEq] at h; subst h
    exact extractScroll_action a _
  rw [if_neg h5] at h ⊢
  by_cases h6 : strStarts a "SWIPE_" = true
  · rw [if_pos h6] at h ⊢
    simp only [Except.ok.injEq] at h; subst h; rfl
  rw [if_neg h6] at h ⊢
  by_cases h7 : a = "OPEN_APP"
  · rw [if_pos h7] at h ⊢
    simp only [Except.ok.injEq] at h; subst h
    repeat' split
    all_goals rfl
  rw [if_neg h7] at h ⊢
  by_cases h8 : a = "FIND_APP"
  · rw [if_pos h8] at h ⊢
    simp only [Except.ok.injEq] at h; subst h
    repeat' split
    all_goals rfl
  rw [if_neg h8] at h ⊢
  by_cases h9 : a = "TYPE_TEXT"
  · rw [if_pos h9] at h ⊢
    simp only [Except.ok.injEq] at h; subst h
    repeat' split
    all_goals rfl
  rw [if_neg h9] at h ⊢
  by_cases h10 : a = "TYPE_AND_SEND"
  · rw [if_pos h10] at h ⊢
    simp only [Except.ok.injEq] at h; subst h
    repeat' split
    all_goals rfl
  rw [if_neg h10] at h ⊢
  by_cases h11 : a = "TYPE_AND_ENTER"
  · rw [if_pos h11] at h ⊢
    simp only [Except.ok.injEq] at h; subst h
    repeat' split
    all_goals rfl
  rw [if_neg h11] at h ⊢
  by_cases h12 : a = "SEND_MESSAGE"
  · rw [if_pos h12] at h ⊢
    simp only [Except.ok.injEq] at h; subst h
    repeat' split
    all_goals first | rfl | exact extract_send_action _
  rw [if_neg h12] at h ⊢
  by_cases h13 : a = "SEARCH_IN_APP"
  · rw [if_pos h13] at h ⊢
    simp only [Except.ok.injEq] at h; subst h
    repeat' split
    all_goals first | rfl | exact extract_search_action _
  rw [if_neg h13] at h ⊢
  by_cases h14 : a = "OPEN_CONTENT_IN_APP"
  · rw [if_pos h14] at h ⊢
    simp only [Except.ok.injEq] at h; subst h
    exact extract_content_action _
  rw [if_neg h14] at h ⊢
  by_cases h15 : a = "TAP"
  · rw [if_pos h15] at h ⊢
    simp only [Except.ok.injEq] at h; subst h
    repeat' split
    all_goals rfl
  rw [if_neg h15] at h ⊢
  by_cases h16 : a = "VISION_QUERY"
  · rw [if_pos h16] at h ⊢
    simp only [Except.ok.injEq] at h; subst h
    rfl
  rw [if_neg h16] at h ⊢
  by_cases h17 : a = "SCREEN_INFO"
  · rw [if_pos h17] at h ⊢
    simp only [Except.ok.injEq] at h; subst h; rfl
  rw [if_neg h17] at h ⊢
  by_cases h18 : a = "FIND_VISUAL"
  · rw [if_pos h18] at h ⊢
    simp only [Except.ok.injEq] at h; subst h
    repeat' split
    all_goals rfl
  rw [if_neg h18] at h ⊢
  by_cases h19 : a = "TEACH_CUSTOM"
  · rw [if_pos h19] at h ⊢
    simp only [Except.ok.injEq] at h; subst h
    cases hx : pyAfter (lowerStr (pyStrip u)) TEACH_VERBS with
    | none => rfl
    | some rest =>
      dsimp only
      by_cases hr : rest = ""
      · rw [if_pos hr, if_pos hr]
      · rw [if_neg hr, if_neg hr]
        rcases splitOnce rest.data with _ | ⟨p1, _ | ⟨p2, _ | _⟩⟩ <;> rfl
  rw [if_neg h19] at h ⊢
  by_cases h20 : a = "FORGET_MAPPING"
  · rw [if_pos h20] at h ⊢
    simp only [Except.ok.injEq] at h; subst h
    repeat' split
    all_goals rfl
  rw [if_neg h20] at h ⊢
  by_cases h21 : a = "KEYEVENT"
  · rw [if_pos h21] at h ⊢
    simp only [Except.ok.injEq] at h; subst h
    repeat' split
    all_goals rfl
  rw [if_neg h21] at h ⊢
  simp only [Except.ok.injEq] at h; subst h; rfl

theorem dGet_eq_none_of_not_mem {d : List (String × PyVal)} {k : String}
    (h : k ∉ d.map Prod.fst) : dGet d k = none := by
  induction d with
  | nil => rfl
  | cons kv rest ih =>
    simp only [List.map_cons, List.mem_cons, not_or] at h
    unfold dGet
    rw [List.find?_cons_of_neg]
    · exact ih h.2
    · simp [Ne.symm h.1]

theorem dGet_filter_truthy {d : List (String × PyVal)} {k : String}
    (hnd : (d.map Prod.fst).Nodup) (hk : k ≠ "action") :
    dGet (d.filter (fun kv => kv.1 ≠ "action" ∧ truthy kv.2)) k =
      match dGet d k with
      | some v => if truthy v then some v else none
      | none => none := by
  induction d with
  | nil => rfl
  | cons kv rest ih =>
    obtain ⟨k1, v⟩ := kv
    simp only [List.map_cons, List.nodup_cons] at hnd
    by_cases hke : k1 = k
    · subst hke
      by_cases ht : truthy v = true
      · rw [List.filter_cons_of_pos (by simp [hk, ht])]
        simp [dGet, List.find?_cons, ht]
      · rw [List.filter_cons_of_neg (by simp [ht])]
        have hnone : dGet (rest.filter (fun kv => kv.1 ≠ "action" ∧ truthy kv.2)) k1 = none := by
          apply dGet_eq_none_of_not_mem
          intro hmem
          obtain ⟨kv', hkv', hfst⟩ := List.mem_map.mp hmem
          exact hnd.1 (List.mem_map.mpr ⟨kv', List.mem_of_mem_filter hkv', hfst⟩)
        rw [hnone]
        simp [dGet, List.find?_cons, ht]
    · by_cases hp : (k1 ≠ "action" ∧ truthy v = true)
      · rw [List.filter_cons_of_pos (by simpa using hp)]
        have hstep : dGet ((k1, v) :: rest.filter (fun kv => kv.1 ≠ "action" ∧ truthy kv.2)) k =
            dGet (rest.filter (fun kv => kv.1 ≠ "action" ∧ truthy kv.2)) k := by
          unfold dGet
          rw [List.find?_cons_of_neg]
          simp [hke]
        rw [hstep, ih hnd.2]
        have hstep2 : dGet ((k1, v) :: rest) k = dGet rest k := by
          unfold dGet
          rw [List.find?_cons_of_neg]
          simp [hke]
        rw [hstep2]
      · rw [List.filter_cons_of_neg (by simpa using hp)]
        rw [ih hnd.2]
        have hstep2 : dGet ((k1, v) :: rest) k = dGet rest k := by
          unfold dGet
          rw [List.find?_cons_of_neg]
          simp [hke]
        rw [hstep2]

theorem lpGetTruthy_filter {data : List (String × PyVal)} {k : String}
    (hnd : (data.map Prod.fst).Nodup) (hk : k ≠ "action") :
    lpGetTruthy (some (data.filter (fun kv => kv.1 ≠ "action" ∧ truthy kv.2))) k =
      lpGetTruthy (some data) k := by
  unfold lpGetTruthy
  dsimp only
  by_cases hd : data = []
  · subst hd; rfl
  · rw [if_neg hd]
    by_cases hf : data.filter (fun kv => kv.1 ≠ "action" ∧ truthy kv.2) = []
    · rw [if_pos hf]
      have h := dGet_filter_truthy hnd hk
      rw [hf] at h
      exact h
    · rw [if_neg hf]
      rw [dGet_filter_truthy hnd hk]
      cases hg : dGet data k with
      | none => rfl
      | some v =>
        dsimp only
        by_cases ht : truthy v = true <;> simp [ht]

theorem cacheStoreAux_find (k : String) (e : CacheEntry) (c : Cache) :
    (cacheStoreAux k e c).find? (fun kv => kv.1 = k) = some (k, e) := by
  induction c with
  | nil => simp [cacheStoreAux, List.find?_cons]
  | cons kv rest ih =>
    unfold cacheStoreAux
    by_cases h : kv.1 = k
    · rw [if_pos h]
      simp [List.find?_cons]
    · rw [if_neg h]
      rw [List.find?_cons_of_neg]
      · exact ih
      · simp [h]

theorem cacheLookup_store (c : Cache) (ph a : String) (ps : List (String × PyVal))
    (src : String) (ex : List String) :
    cacheLookup (cacheStore c ph a ps src ex) ph = some ⟨a, ps, src, ex⟩ := by
  unfold cacheLookup cacheStore
  rw [cacheStoreAux_find]
  rfl

theorem extractVolume_amount_safe {a : String} {t : List Char}
    {lp : Option (List (String × PyVal))} {c : Command}
    (h : extractVolume a t lp = .ok c) : amountHintSafe lp := by
  intro v hv
  unfold extractVolume at h
  rw [hv] at h
  dsimp only at h
  cases hp : pyToInt v with
  | some n => simp [hp]
  | none =>
    rw [hp] at h
    dsimp only at h
    exact absurd h (by simp)

/-- The Tier-2 path on a validated LLM reply: one classifier call, the
`tier2` counter bumped, the lowercased phrase stored with truthy-filtered
params, and the extracted command returned. -/
theorem tier2_run_eq {lo : LLMOracle} {raw A : String} {data : List (String × PyVal)}
    (s : EngineState)
    (hllm : lo raw = some data)
    (hact : dGet data "action" = some (.pstr A))
    (hkey : A ∈ ACTION_DESCRIPTION_KEYS)
    {c1 : Command} (hex : extract A raw (some data) = .ok c1) :
    tier2_classify lo true raw s =
      .ok (some c1,
        { cache := cacheStore s.cache (lowerStr raw) A
            (data.filter (fun kv => kv.1 ≠ "action" ∧ truthy kv.2)) "llm" [],
          stats := { s.stats with tier2 := s.stats.tier2 + 1 },
          llmCalls := s.llmCalls + 1, matchCalls := s.matchCalls }) := by
  unfold tier2_classify
  dsimp only
  rw [llmClassify, if_pos rfl, hllm]
  dsimp only [Option.bind]
  rw [validateLLM, hact]
  dsimp only
  rw [if_pos hkey]
  dsimp only
  rw [llmAction, hact]
  dsimp only
  rw [hex]
  rfl

/-- When the Tier-1 outcome neither resolves through a cached label nor
clears the confident band, the dispatch defers to Tier 2 and forwards a
resolving Tier-2 answer unchanged. -/
theorem classifyMatches_tier2 {lo : LLMOracle} {raw : String}
    {ms : List (ℚ × String × String)} {s S : EngineState} {c : Command}
    (hreach : tier2Reachable s.cache ms)
    (ht2 : tier2_classify lo true raw s = .ok (some c, S)) :
    classifyMatches lo true raw ms s = .ok (some c, S) := by
  cases ms with
  | nil =>
    unfold classifyMatches classifyBottom
    rw [if_pos rfl, ht2]
  | cons e tl =>
    obtain ⟨sc, lbl, ex⟩ := e
    have hr : (strStarts lbl "CACHED:" = true →
        cacheLookup s.cache (String.mk (lbl.data.drop 7)) = none) ∧
        sc < TIER1_CONFIDENT := hreach
    unfold classifyMatches
    dsimp only
    have hscrut : (if strStarts lbl "CACHED:" = true then
        cacheLookup s.cache (String.mk (lbl.data.drop 7)) else none) = none := by
      by_cases hcc : strStarts lbl "CACHED:" = true
      · rw [if_pos hcc]; exact hr.1 hcc
      · rw [if_neg hcc]
    rw [hscrut]
    dsimp only
    rw [if_neg (not_le.mpr hr.2)]
    by_cases hunc : TIER1_UNCERTAIN ≤ sc
    · rw [if_pos hunc, if_pos rfl, ht2]
    · rw [if_neg hunc]
      unfold classifyBottom
      rw [if_pos rfl, ht2]

/-- `_classify_single` on a cache miss with no Tier-0 match defers to the
confidence-band dispatch on the matcher output. -/
theorem classify_single_dispatch {mo : MatchOracle} {lo : LLMOracle} {u : String}
    {s : EngineState} {res : Option Command × EngineState}
    (hne : pyStrip u ≠ "")
    (hcache : cacheLookup s.cache (lowerStr (pyStrip u)) = none)
    (ht0 : tier0 (lowerStr (pyStrip u)) = none)
    (hcm : classifyMatches lo true (pyStrip u) (mo s.cache (pyStrip u))
        { s with matchCalls := s.matchCalls + 1 } = .ok res) :
    classify_single mo lo true u s = .ok res := by
  simp only [classify_single, if_neg hne]
  rw [hcache]
  dsimp only
  rw [ht0]
  dsimp only
  exact hcm

/-- `_classify_single` on an exact cache hit: extract from the stored
entry, bump `cache_hit`, and never consult matcher or classifier. -/
theorem classify_single_cache_hit {mo : MatchOracle} {lo : LLMOracle} {avail : Bool}
    {u : String} {s : EngineState} {entry : CacheEntry} {c : Command}
    (hne : pyStrip u ≠ "")
    (hl : cacheLookup s.cache (lowerStr (pyStrip u)) = some entry)
    (hex : extract entry.action (pyStrip u) (some entry.params) = .ok c) :
    classify_single mo lo avail u s = .ok (some c, bumpCacheHit s) := by
  simp only [classify_single, if_neg hne]
  rw [hl]
  dsimp only
  rw [hex]
  rfl

/-- C1 (amended): when the classifier validates an action for a phrase
that is not cached, not compound, not a Tier-0 match, and not resolved by
Tier 1, the first `understand()` call consults the classifier exactly
once, stores the lowercased phrase with its truthy-filtered params in the
learning cache and returns the extracted command; a second call on the
same phrase resolves through the exact-match cache path, leaves the
classifier-call count unchanged and yields a command with the same
resolved action.  (The command *value* can differ — falsy LLM param slots
are dropped at store time; see the counterexample — so value equality is
dropped from the claim.) -/
theorem tier_promotion
    (mo : MatchOracle) (lo : LLMOracle) (u A : String) (s : EngineState)
    (data : List (String × PyVal)) (c1 : Command)
    (hne : pyStrip u ≠ "")
    (hsplit : split_compound (pyStrip u) = none)
    (hcache : cacheLookup s.cache (lowerStr (pyStrip u)) = none)
    (ht0 : tier0 (lowerStr (pyStrip u)) = none)
    (hreach : tier2Reachable s.cache (mo s.cache (pyStrip u)))
    (hllm : lo (pyStrip u) = some data)
    (hact : dGet data "action" = some (.pstr A))
    (hkey : A ∈ ACTION_DESCRIPTION_KEYS)
    (hnd : (data.map Prod.fst).Nodup)
    (hex : extract A (pyStrip u) (some data) = .ok c1) :
    ∃ s1,
      understand mo lo true u s = .ok (some c1, s1) ∧
      s1.llmCalls = s.llmCalls + 1 ∧
      s1.cache = cacheStore s.cache (lowerStr (pyStrip u)) A
        (data.filter (fun kv => kv.1 ≠ "action" ∧ truthy kv.2)) "llm" [] ∧
      cacheLookup s1.cache (lowerStr (pyStrip u)) =
        some ⟨A, data.filter (fun kv => kv.1 ≠ "action" ∧ truthy kv.2), "llm", []⟩ ∧
      ∃ c2,
        understand mo lo true u s1 = .ok (some c2, bumpCacheHit s1) ∧
        (bumpCacheHit s1).llmCalls = s1.llmCalls ∧
        c2.action = c1.action := by
  have hne2 : pyStrip (pyStrip u) ≠ "" := by rw [pyStrip_idem]; exact hne
  have hcache2 : cacheLookup s.cache (lowerStr (pyStrip (pyStrip u))) = none := by
    rw [pyStrip_idem]; exact hcache
  have ht02 : tier0 (lowerStr (pyStrip (pyStrip u))) = none := by
    rw [pyStrip_idem]; exact ht0
  refine ⟨{ cache := cacheStore s.cache (lowerStr (pyStrip u)) A
                (data.filter (fun kv => kv.1 ≠ "action" ∧ truthy kv.2)) "llm" [],
              stats := { s.stats with tier2 := s.stats.tier2 + 1 },
              llmCalls := s.llmCalls + 1,
              matchCalls := s.matchCalls + 1 }, ?_, rfl, rfl, ?_, ?_⟩
  · rw [understand, if_neg hne, hsplit]
    dsimp only
    apply classify_single_dispatch hne2 hcache2 ht02
    rw [pyStrip_idem]
    exact classifyMatches_tier2 hreach (tier2_run_eq _ hllm hact hkey hex)
  · exact cacheLookup_store s.cache (lowerStr (pyStrip u)) A _ "llm" []
  · have hsafe : A = "VOLUME_UP" ∨ A = "VOLUME_DOWN" →
        amountHintSafe (some (data.filter (fun kv => kv.1 ≠ "action" ∧ truthy kv.2))) := by
      intro hv v hvv
      rw [lpGetTruthy_filter hnd (by decide)] at hvv
      have hexv : extractVolume A (lowerStr (pyStrip (pyStrip u))).data (some data) = .ok c1 :=
        (extract_volume_eq A hv (pyStrip u) (some data)).symm.trans hex
      exact extractVolume_amount_safe hexv v hvv
    obtain ⟨c2, hex2⟩ := extract_ok A (pyStrip u)
      (some (data.filter (fun kv => kv.1 ≠ "action" ∧ truthy kv.2))) hsafe
    refine ⟨c2, ?_, rfl, by rw [extract_action hex2, extract_action hex]⟩
    rw [understand, if_neg hne, hsplit]
    dsimp only
    apply classify_single_cache_hit hne2
    · rw [pyStrip_idem]
      exact cacheLookup_store s.cache (lowerStr (pyStrip u)) A _ "llm" []
    · rw [pyStrip_idem]
      exact hex2

/-- Counterexample to C1 as stated: with an LLM reply carrying a falsy
`app` slot, the second (cache-hit) call returns the same action but a
different command value than the first (the falsy slot was dropped when
the phrase was stored). -/
theorem tier_promotion_counterexample :
    understand stubEmptyMatch stubFalsySlotLLM true "locate kittens" {} =
      .ok (some { action := "SEARCH_IN_APP", query := some (.pstr "cats"),
                  text := some (.pint 0) },
        { cache := [("locate kittens",
            ⟨"SEARCH_IN_APP", [("query", .pstr "cats")], "llm", []⟩)],
          stats := { tier2 := 1 }, llmCalls := 1, matchCalls := 1 }) ∧
    understand stubEmptyMatch stubFalsySlotLLM true "locate kittens"
        { cache := [("locate kittens",
            ⟨"SEARCH_IN_APP", [("query", .pstr "cats")], "llm", []⟩)],
          stats := { tier2 := 1 }, llmCalls := 1, matchCalls := 1 } =
      .ok (some { action := "SEARCH_IN_APP", query := some (.pstr "cats"),
                  text := some (.pstr "") },
        { cache := [("locate kittens",
            ⟨"SEARCH_IN_APP", [("query", .pstr "cats")], "llm", []⟩)],
          stats := { tier2 := 1, cache_hit := 1 }, llmCalls := 1, matchCalls := 1 }) ∧
    ({ action := "SEARCH_IN_APP", query := some (.pstr "cats"), text := some (.pint 0) } :
        Command) ≠
      { action := "SEARCH_IN_APP", query := some (.pstr "cats"), text := some (.pstr "") } :=
  ⟨by decide, by decide, by decide⟩

/-- Witness for C1 (amended) on the "blast it" scenario of the spec. -/
theorem tier_promotion_witness :
    ∃ s1,
      understand stubEmptyMatch stubBlastLLM true "blast it" {} =
        .ok (some { action := "VOLUME_UP", amount := 5 }, s1) ∧
      s1.llmCalls = ({} : EngineState).llmCalls + 1 ∧
      s1.cache = cacheStore ({} : EngineState).cache (lowerStr (pyStrip "blast it")) "VOLUME_UP"
        ([("action", PyVal.pstr "VOLUME_UP"), ("amount", PyVal.pint 5)].filter
          (fun kv => kv.1 ≠ "action" ∧ truthy kv.2)) "llm" [] ∧
      cacheLookup s1.cache (lowerStr (pyStrip "blast it")) =
        some ⟨"VOLUME_UP",
          [("action", PyVal.pstr "VOLUME_UP"), ("amount", PyVal.pint 5)].filter
            (fun kv => kv.1 ≠ "action" ∧ truthy kv.2), "llm", []⟩ ∧
      ∃ c2,
        understand stubEmptyMatch stubBlastLLM true "blast it" s1 =
          .ok (some c2, bumpCacheHit s1) ∧
        (bumpCacheHit s1).llmCalls = s1.llmCalls ∧
        c2.action = ({ action := "VOLUME_UP", amount := 5 } : Command).action :=
  tier_promotion stubEmptyMatch stubBlastLLM "blast it" "VOLUME_UP" {}
    [("action", PyVal.pstr "VOLUME_UP"), ("amount", PyVal.pint 5)]
    { action := "VOLUME_UP", amount := 5 }
    (by decide) (by decide) (by decide) (by decide) True.intro
    (by decide) (by decide) (by decide) (by decide) (by decide)

/-! ## C9: TF-IDF match result shape -/

theorem insertScoreDesc_perm (x : ℚ × String × String) (l : List (ℚ × String × String)) :
    List.Perm (insertScoreDesc x l) (x :: l) := by
  induction l with
  | nil => rfl
  | cons y ys ih =>
    unfold insertScoreDesc
    by_cases h : y.1 < x.1
    · rw [if_pos h]
    · rw [if_neg h]
      exact List.Perm.trans (List.Perm.cons y ih) (List.Perm.swap x y ys)

theorem sortScoreDesc_perm_aux (l : List (ℚ × String × String)) :
    ∀ acc, List.Perm (l.foldl (fun a x => insertScoreDesc x a) acc) (l ++ acc) := by
  induction l with
  | nil => intro acc; rfl
  | cons x xs ih =>
    intro acc
    simp only [List.foldl_cons, List.cons_append]
    exact List.Perm.trans (ih _) (List.Perm.trans
      (List.Perm.append_left xs (insertScoreDesc_perm x acc)) List.perm_middle)

theorem sortScoreDesc_perm (l : List (ℚ × String × String)) :
    List.Perm (sortScoreDesc l) l := by
  have h := sortScoreDesc_perm_aux l []
  simpa [sortScoreDesc] using h

theorem insertScoreDesc_sorted (x : ℚ × String × String)
    {l : List (ℚ × String × String)} (hl : l.Pairwise (fun a b => b.1 ≤ a.1)) :
    (insertScoreDesc x l).Pairwise (fun a b => b.1 ≤ a.1) := by
  induction l with
  | nil => simp [insertScoreDesc]
  | cons y ys ih =>
    rw [List.pairwise_cons] at hl
    unfold insertScoreDesc
    by_cases h : y.1 < x.1
    · rw [if_pos h]
      refine List.Pairwise.cons ?_ (List.Pairwise.cons hl.1 hl.2)
      intro z hz
      rcases List.mem_cons.mp hz with rfl | hz'
      · exact le_of_lt h
      · exact le_trans (hl.1 z hz') (le_of_lt h)
    · rw [if_neg h]
      refine List.Pairwise.cons ?_ (ih hl.2)
      intro z hz
      rcases List.mem_cons.mp ((insertScoreDesc_perm x ys).mem_iff.mp hz) with rfl | hz'
      · exact not_lt.mp h
      · exact hl.1 z hz'

theorem sortScoreDesc_sorted_aux :
    ∀ (l acc : List (ℚ × String × String)),
      acc.Pairwise (fun a b => b.1 ≤ a.1) →
      (l.foldl (fun a x => insertScoreDesc x a) acc).Pairwise (fun a b => b.1 ≤ a.1)
  | [], acc, h => by simpa using h
  | x :: xs, acc, h => by
    simp only [List.foldl_cons]
    exact sortScoreDesc_sorted_aux xs _ (insertScoreDesc_sorted x h)

theorem sortScoreDesc_sorted (l : List (ℚ × String × String)) :
    (sortScoreDesc l).Pairwise (fun a b => b.1 ≤ a.1) :=
  sortScoreDesc_sorted_aux l [] (by simp)

theorem dedupTake_length (k : Nat) :
    ∀ (l : List (ℚ × String × String)) (seen : List String) (cnt : Nat),
      cnt < k → (dedupTake k l seen cnt).length ≤ k - cnt
  | [], seen, cnt, _ => by simp [dedupTake]
  | e :: rest, seen, cnt, h => by
    unfold dedupTake
    by_cases hs : e.2.1 ∈ seen
    · rw [if_pos hs]
      exact dedupTake_length k rest seen cnt h
    · rw [if_neg hs]
      by_cases hk2 : k ≤ cnt + 1
      · rw [if_pos hk2]
        simp only [List.length_singleton]
        omega
      · rw [if_neg hk2]
        have hrec := dedupTake_length k rest (e.2.1 :: seen) (cnt + 1) (by omega)
        simp only [List.length_cons]
        omega

theorem dedupTake_sublist (k : Nat) :
    ∀ (l : List (ℚ × String × String)) (seen : List String) (cnt : Nat),
      List.Sublist (dedupTake k l seen cnt) l
  | [], _, _ => by simp [dedupTake]
  | e :: rest, seen, cnt => by
    unfold dedupTake
    by_cases hs : e.2.1 ∈ seen
    · rw [if_pos hs]
      exact (dedupTake_sublist k rest seen cnt).trans (List.sublist_cons_self e rest)
    · rw [if_neg hs]
      by_cases hk2 : k ≤ cnt + 1
      · rw [if_pos hk2]
        exact List.singleton_sublist.mpr (List.mem_cons_self e rest)
      · rw [if_neg hk2]
        exact List.Sublist.cons₂ e (dedupTake_sublist k rest (e.2.1 :: seen) (cnt + 1))

theorem dedupTake_spec (k : Nat) :
    ∀ (l : List (ℚ × String × String)) (seen : List String) (cnt : Nat),
      l.Pairwise (fun a b => b.1 ≤ a.1) →
      (∀ e ∈ dedupTake k l seen cnt, e.2.1 ∉ seen) ∧
      ((dedupTake k l seen cnt).map (fun e => e.2.1)).Nodup ∧
      (∀ e ∈ dedupTake k l seen cnt, ∀ p ∈ l, p.2.1 = e.2.1 → p.1 ≤ e.1)
  | [], seen, cnt, _ => by simp [dedupTake]
  | e :: rest, seen, cnt, hp => by
    rw [List.pairwise_cons] at hp
    obtain ⟨hhead, htail⟩ := hp
    obtain ⟨ih1, ih2, ih3⟩ := dedupTake_spec k rest seen cnt htail
    obtain ⟨jh1, jh2, jh3⟩ := dedupTake_spec k rest (e.2.1 :: seen) (cnt + 1) htail
    unfold dedupTake
    by_cases hs : e.2.1 ∈ seen
    · rw [if_pos hs]
      refine ⟨ih1, ih2, ?_⟩
      intro x hx p hpmem hpa
      rcases List.mem_cons.mp hpmem with rfl | hpr
      · exact absurd (hpa ▸ hs) (ih1 x hx)
      · exact ih3 x hx p hpr hpa
    · rw [if_neg hs]
      by_cases hk2 : k ≤ cnt + 1
      · rw [if_pos hk2]
        refine ⟨?_, by simp, ?_⟩
        · intro x hx
          rcases List.mem_singleton.mp hx with rfl
          exact hs
        · intro x hx p hpmem hpa
          rcases List.mem_singleton.mp hx with rfl
          rcases List.mem_cons.mp hpmem with rfl | hpr
          · exact le_refl _
          · exact hhead p hpr
      · rw [if_neg hk2]
        refine ⟨?_, ?_, ?_⟩
        · intro x hx
          rcases List.mem_cons.mp hx with rfl | hx'
          · exact hs
          · exact fun hmem => jh1 x hx' (List.mem_cons_of_mem _ hmem)
        · simp only [List.map_cons, List.nodup_cons]
          refine ⟨?_, jh2⟩
          intro hmem
          obtain ⟨x, hx, hxa⟩ := List.mem_map.mp hmem
          exact jh1 x hx (by rw [hxa]; exact List.mem_cons_self _ _)
        · intro x hx p hpmem hpa
          rcases List.mem_cons.mp hx with rfl | hx'
          · rcases List.mem_cons.mp hpmem with rfl | hpr
            · exact le_refl _
            · exact hhead p hpr
          · rcases List.mem_cons.mp hpmem with rfl | hpr
            · exact absurd (by rw [← hpa]; exact List.mem_cons_self _ _) (jh1 x hx')
            · exact jh3 x hx' p hpr hpa

theorem dotQ_nil_right (a : List (String × ℚ)) : dotQ a [] = 0 := by
  unfold dotQ
  suffices h : ∀ (ks : List String) (acc : ℚ),
      ks.foldl (fun acc k => acc + vGet a k * vGet [] k) acc = acc by
    exact h _ 0
  intro ks
  induction ks with
  | nil => intro acc; rfl
  | cons kk ks ih =>
    intro acc
    simp only [List.foldl_cons]
    rw [show vGet ([] : List (String × ℚ)) kk = 0 from rfl, mul_zero, add_zero]
    exact ih acc

theorem cosineQ_nil_right (sqrt : ℚ → ℚ) (v : List (String × ℚ)) :
    cosineQ sqrt v [] = 0 := by
  unfold cosineQ
  rw [dotQ_nil_right, zero_div]

/-- Shape of the dedup-after-sort pipeline on positively scored entries. -/
theorem match_core_spec (k : Nat) (hk : 1 ≤ k)
    (zl : List (List (String × ℚ) × String × String)) (score : List (String × ℚ) → ℚ)
    (R : List (ℚ × String × String))
    (hR : R = dedupTake k (sortScoreDesc (zl.filterMap
      (fun p => if 0 < score p.1 then some (score p.1, p.2.1, p.2.2) else none))) [] 0) :
    R.length ≤ k ∧
    R.Pairwise (fun a b => b.1 ≤ a.1) ∧
    (R.map (fun e => e.2.1)).Nodup ∧
    ∀ e ∈ R, 0 < e.1 ∧
      (∃ p ∈ zl, p.2.1 = e.2.1 ∧ score p.1 = e.1) ∧
      (∀ p ∈ zl, p.2.1 = e.2.1 → score p.1 ≤ e.1) := by
  subst hR
  have hsorted := sortScoreDesc_sorted (zl.filterMap
    (fun p => if 0 < score p.1 then some (score p.1, p.2.1, p.2.2) else none))
  have hperm := sortScoreDesc_perm (zl.filterMap
    (fun p => if 0 < score p.1 then some (score p.1, p.2.1, p.2.2) else none))
  obtain ⟨hseen, hnodup, hmax⟩ := dedupTake_spec k _ [] 0 hsorted
  refine ⟨?_, List.Pairwise.sublist (dedupTake_sublist k _ [] 0) hsorted, hnodup, ?_⟩
  · have hlen := dedupTake_length k (sortScoreDesc (zl.filterMap
      (fun p => if 0 < score p.1 then some (score p.1, p.2.1, p.2.2) else none))) [] 0
      (by omega)
    simpa using hlen
  · intro e he
    have heS := (dedupTake_sublist k _ [] 0).subset he
    have heL := hperm.mem_iff.mp heS
    obtain ⟨p, hp, hf⟩ := List.mem_filterMap.mp heL
    by_cases hpos : 0 < score p.1
    · rw [if_pos hpos] at hf
      simp only [Option.some.injEq] at hf
      subst hf
      refine ⟨hpos, ⟨p, hp, rfl, rfl⟩, ?_⟩
      intro p' hp' hpa
      by_cases hpos' : 0 < score p'.1
      · have hin : (score p'.1, p'.2.1, p'.2.2) ∈ zl.filterMap
            (fun p => if 0 < score p.1 then some (score p.1, p.2.1, p.2.2) else none) :=
          List.mem_filterMap.mpr ⟨p', hp', by rw [if_pos hpos']⟩
        exact hmax _ he _ (hperm.mem_iff.mpr hin) hpa
      · exact le_trans (not_lt.mp hpos') (le_of_lt hpos)
    · rw [if_neg hpos] at hf
      exact absurd hf (by simp)

/-- C9 (amended): for at least one requested match, `match` returns at
most `top_k` triples, in non-increasing score order, with pairwise
distinct action labels, each carrying the (positive) highest cosine score
attained by any indexed document of its action; an empty-tokenizing query
yields no results, and cosine similarity against the zero vector is 0
(epsilon-guarded denominator) rather than a division error.  (For
`top_k = 0` the dedup loop's break-after-append still emits one entry —
see the counterexample — so the bound needs `1 ≤ top_k`.) -/
theorem tfidf_match_shape (log sqrt : ℚ → ℚ) (m0 : TFIDFMatcher) (query : String)
    (top_k : Nat) (M : TFIDFMatcher) (qv : List (String × ℚ))
    (hk : 1 ≤ top_k)
    (hM : M = (if m0.built then m0 else build log m0))
    (hqv : qv = tfidfOf M.idf (tokenize query)) :
    (tfidf_match log sqrt m0 query top_k).length ≤ top_k ∧
    (tfidf_match log sqrt m0 query top_k).Pairwise (fun a b => b.1 ≤ a.1) ∧
    ((tfidf_match log sqrt m0 query top_k).map (fun e => e.2.1)).Nodup ∧
    (∀ e ∈ tfidf_match log sqrt m0 query top_k,
      0 < e.1 ∧
      (∃ p ∈ M.doc_tfidf.zip M.documents, p.2.1 = e.2.1 ∧ cosineQ sqrt qv p.1 = e.1) ∧
      (∀ p ∈ M.doc_tfidf.zip M.documents, p.2.1 = e.2.1 → cosineQ sqrt qv p.1 ≤ e.1)) ∧
    (tokenize query = [] → tfidf_match log sqrt m0 query top_k = []) ∧
    (∀ v, cosineQ sqrt v [] = 0) := by
  subst hM
  subst hqv
  unfold tfidf_match
  dsimp only
  by_cases hq : tokenize query = []
  · rw [if_pos hq]
    exact ⟨Nat.zero_le _, List.Pairwise.nil, by simp, by simp, fun _ => rfl,
      fun v => cosineQ_nil_right sqrt v⟩
  · rw [if_neg hq]
    obtain ⟨l1, l2, l3, l4⟩ := match_core_spec top_k hk
      ((if m0.built then m0 else build log m0).doc_tfidf.zip
        (if m0.built then m0 else build log m0).documents)
      (cosineQ sqrt (tfidfOf (if m0.built then m0 else build log m0).idf (tokenize query)))
      _ rfl
    exact ⟨l1, l2, l3, l4, fun hcon => absurd hcon hq,
      fun v => cosineQ_nil_right sqrt v⟩

/-- Counterexample to C9 as stated: with `top_k = 0` the break-after-append
loop still returns one entry, so "at most top_k" fails at 0. -/
theorem tfidf_match_shape_counterexample :
    (tfidf_match (fun _ => 0) (fun _ => 1) demoMatcher "volume" 0).length = 1 := by
  with_unfolding_all decide

/-- Witness for C9 (amended) on a one-document index at `top_k = 3`. -/
theorem tfidf_match_shape_witness :
    1 ≤ 3 ∧ (tfidf_match (fun _ => 0) (fun _ => 1) demoMatcher "volume" 3).length ≤ 3 :=
  ⟨by decide, (tfidf_match_shape (fun _ => 0) (fun _ => 1) demoMatcher "volume" 3 _ _
    (by decide) rfl rfl).1⟩

end VoiceAgent
